import Mathlib

/-!
Verification of the doc-to-md document structuring and chunking engine.

The Python source is shallowly embedded: strings are `List Char`, each
`re` pattern is hand-compiled to a backtracking matcher built from the
combinators below, and every pipeline stage is a Lean function mirroring
the corresponding Python method statement by statement.
-/

set_option maxRecDepth 100000
set_option maxHeartbeats 2000000

namespace DocToMd

abbrev Chars := List Char

/-- Python `str` whitespace and regex whitespace class (ASCII part). -/
def pyWS (c : Char) : Bool :=
  c = ' ' || c = '\t' || c = '\n' || c = '\r' || c = '\x0b' || c = '\x0c'

/-- Regex whitespace class for patterns compiled without re.DOTALL. -/
def notNL (c : Char) : Bool := c ≠ '\n'

def isDigitC (c : Char) : Bool := c.isDigit

/-- Python str.lstrip() on char lists. -/
def pyLStrip (cs : Chars) : Chars := cs.dropWhile pyWS

/-- Python str.rstrip() on char lists. -/
def pyRStrip (cs : Chars) : Chars := (cs.reverse.dropWhile pyWS).reverse

/-- Python str.strip() on char lists. -/
def pyStrip (cs : Chars) : Chars := pyRStrip (pyLStrip cs)

/-- Python str.split() with no argument: split on whitespace runs, dropping
empty pieces (fueled; fuel = length of the input suffices). -/
def pySplitWhiteAux : Nat → Chars → List Chars
  | 0, _ => []
  | _ + 1, [] => []
  | fuel + 1, c :: cs =>
    if pyWS c then pySplitWhiteAux fuel cs
    else
      ((c :: cs).takeWhile (fun d => !pyWS d)) ::
        pySplitWhiteAux fuel ((c :: cs).dropWhile (fun d => !pyWS d))
def pySplitWhite (cs : Chars) : List Chars := pySplitWhiteAux (cs.length + 1) cs

/-- Split a char list on a single separator character (Python
str.split(sep) with a one-character separator). -/
def splitOnChar (sep : Char) : Chars → List Chars
  | [] => [[]]
  | c :: cs =>
    let r := splitOnChar sep cs
    if c = sep then [] :: r
    else (c :: r.headD []) :: r.tail

/-- Join pieces with a separator (Python sep.join(pieces)). -/
def joinSep (sep : Chars) (pieces : List Chars) : Chars :=
  List.intercalate sep pieces

/-- Does pat occur as a contiguous sublist (Python `in` on str)? -/
def containsSub (pat : Chars) : Chars → Bool
  | [] => decide (pat = [])
  | c :: cs => pat.isPrefixOf (c :: cs) || containsSub pat cs

/-- Python str.replace(old, new) with a nonempty old, all occurrences,
scanning left to right (fueled). -/
def replaceAllAux (old new : Chars) : Nat → Chars → Chars
  | 0, cs => cs
  | _ + 1, [] => []
  | fuel + 1, c :: cs =>
    if old.isPrefixOf (c :: cs) && !old.isEmpty then
      new ++ replaceAllAux old new fuel ((c :: cs).drop old.length)
    else
      c :: replaceAllAux old new fuel cs

def replaceAll (old new : Chars) (cs : Chars) : Chars :=
  replaceAllAux old new (cs.length + 1) cs

/-- Python str.lower() (ASCII case fold, which is what the inputs use). -/
def pyLower (cs : Chars) : Chars := cs.map Char.toLower

/-- Python str.isdigit() on a char list: nonempty and all digits. -/
def pyIsDigitStr (cs : Chars) : Bool := !cs.isEmpty && cs.all isDigitC

/-! ## Backtracking matcher combinators

Each Python regex used by the source is compiled by hand to a chain of
these combinators.  A continuation receives the reversed consumed run
(the capture, reversed) and the remaining input; greedy pieces try the
longest consumption first and back off one character at a time, lazy
pieces try the shortest first and grow. -/

/-- Longest prefix of characters satisfying p, and the rest. -/
def spanB (p : Char → Bool) : Chars → Chars × Chars
  | [] => ([], [])
  | c :: cs =>
    if p c then
      let r := spanB p cs
      (c :: r.1, r.2)
    else ([], c :: cs)

/-- Longest prefix of characters satisfying p of length at most n. -/
def spanUpTo (p : Char → Bool) : Nat → Chars → Chars × Chars
  | 0, cs => ([], cs)
  | _ + 1, [] => ([], [])
  | n + 1, c :: cs =>
    if p c then
      let r := spanUpTo p n cs
      (c :: r.1, r.2)
    else ([], c :: cs)

/-- Greedy backtracking over an already-consumed run held in reverse:
try the continuation with everything consumed, then give back one
character at a time, never going below lo consumed characters. -/
def backOff (lo : Nat) (k : Chars → Chars → Option α) :
    Chars → Chars → Option α
  | [], rest => if ([] : Chars).length ≥ lo then k [] rest else none
  | c :: rs, rest =>
    match (if (c :: rs).length ≥ lo then k (c :: rs) rest else none) with
    | some a => some a
    | none => backOff lo k rs (c :: rest)

/-- Greedy repetition of a character class with lower bound lo and no
upper bound, continuing with k (which receives the reversed capture). -/
def greedyCls (p : Char → Bool) (lo : Nat)
    (k : Chars → Chars → Option α) (cs : Chars) : Option α :=
  let s := spanB p cs
  backOff lo k s.1.reverse s.2

/-- Greedy repetition of a character class with bounds lo..hi. -/
def greedyClsUpTo (p : Char → Bool) (lo hi : Nat)
    (k : Chars → Chars → Option α) (cs : Chars) : Option α :=
  let s := spanUpTo p hi cs
  backOff lo k s.1.reverse s.2

/-- Lazy repetition of a character class (shortest first), continuing
with k (which receives the reversed capture). -/
def lazyCls (p : Char → Bool) (k : Chars → Chars → Option α) :
    Chars → Chars → Option α
  | accRev, cs =>
    match k accRev cs with
    | some a => some a
    | none =>
      match cs with
      | [] => none
      | c :: rest =>
        if p c then lazyCls p k (c :: accRev) rest else none

/-- Literal string piece. -/
def litM (pat : Chars) (k : Chars → Option α) (cs : Chars) : Option α :=
  if pat.isPrefixOf cs then k (cs.drop pat.length) else none

/-- MULTILINE end-of-line anchor: end of input or just before a newline. -/
def atEolM (cs : Chars) : Bool :=
  match cs with
  | [] => true
  | c :: _ => c = '\n'

/-- One matcher step result: number of characters consumed (≥ 1 for all
patterns in this development) and the replacement text. -/
abbrev SubMatch := Nat × Chars

/-- re.sub over the whole text.  The matcher sees whether the current
position is a line start (for MULTILINE ^ and for alternations that
mention ^) and the remaining input; a successful match consumes n ≥ 1
characters and emits repl. -/
def subScanP (m : Bool → Chars → Option SubMatch) :
    Nat → Bool → Chars → Chars
  | 0, _, cs => cs
  | fuel + 1, atLS, cs =>
    match m atLS cs with
    | some (n, repl) =>
      if n = 0 then
        match cs with
        | [] => repl
        | c :: rest => repl ++ c :: subScanP m fuel (c == '\n') rest
      else
        repl ++ subScanP m fuel (cs.get? (n - 1) == some '\n') (cs.drop n)
    | none =>
      match cs with
      | [] => []
      | c :: rest => c :: subScanP m fuel (c == '\n') rest

/-- Entry point for re.sub on a whole document (position 0 is a line
start). -/
def reSubP (m : Bool → Chars → Option SubMatch) (cs : Chars) : Chars :=
  subScanP m (cs.length + 1) true cs

/-- re.sub for a pattern that either starts with a MULTILINE ^
(anchored = true: only tried at line starts) or has no anchor at all. -/
def reSub (anchored : Bool) (m : Chars → Option SubMatch) (cs : Chars) : Chars :=
  reSubP (fun atLS s => if anchored && !atLS then none else m s) cs

/-- re.finditer: collect non-overlapping matches left to right; each hit
records (start position, consumed length, captures). -/
def findScanP (m : Bool → Chars → Option (Nat × κ)) :
    Nat → Bool → Nat → Chars → List (Nat × Nat × κ)
  | 0, _, _, _ => []
  | fuel + 1, atLS, pos, cs =>
    match m atLS cs with
    | some (n, caps) =>
      if n = 0 then
        match cs with
        | [] => [(pos, n, caps)]
        | c :: rest =>
          (pos, n, caps) :: findScanP m fuel (c == '\n') (pos + 1) rest
      else
        (pos, n, caps) ::
          findScanP m fuel (cs.get? (n - 1) == some '\n') (pos + n) (cs.drop n)
    | none =>
      match cs with
      | [] => []
      | c :: rest => findScanP m fuel (c == '\n') (pos + 1) rest

/-- Entry point for re.finditer. -/
def reFind (anchored : Bool) (m : Chars → Option (Nat × κ)) (cs : Chars) :
    List (Nat × Nat × κ) :=
  findScanP (fun atLS s => if anchored && !atLS then none else m s)
    (cs.length + 1) true 0 cs

/-- re.search as a Boolean: does the pattern match anywhere? -/
def reSearch (m : Chars → Option SubMatch) (cs : Chars) : Bool :=
  !(reFind false (fun s => (m s).map (fun r => (r.1, ()))) cs).isEmpty

/-! ## difflib.SequenceMatcher

Embedding of CPython difflib's ratio computation for two short strings
(isjunk = None; autojunk never fires because the titles compared are far
shorter than 200 characters).  Ratios are modelled as exact rationals;
the default threshold 0.8 becomes 4/5 (no comparison made by the
claims sits at a float-rounding boundary). -/

/-- b2j: map each character of b to its ascending list of indices. -/
def b2jBuild (b : Chars) : List (Char × List Nat) :=
  (b.zip (List.range b.length)).foldl
    (fun m p =>
      if m.any (fun q => q.1 == p.1) then
        m.map (fun q => if q.1 == p.1 then (q.1, q.2 ++ [p.2]) else q)
      else m ++ [(p.1, [p.2])])
    []

def b2jGet (m : List (Char × List Nat)) (c : Char) : List Nat :=
  ((m.find? (fun q => q.1 == c)).map (fun q => q.2)).getD []

def natDictGet (m : List (Nat × Nat)) (j : Nat) : Nat :=
  ((m.find? (fun q => q.1 == j)).map (fun q => q.2)).getD 0

/-- Inner loop of find_longest_match over the index list of b2j[a[i]]:
`continue` below blo, `break` at or beyond bhi, otherwise extend the
diagonal run and update the best block on a strict improvement. -/
def flmInner (j2len : List (Nat × Nat)) (blo bhi i : Nat) :
    List Nat → List (Nat × Nat) → Nat × Nat × Nat →
    List (Nat × Nat) × (Nat × Nat × Nat)
  | [], new, best => (new, best)
  | j :: js, new, best =>
    if j < blo then flmInner j2len blo bhi i js new best
    else if bhi ≤ j then (new, best)
    else
      let k := (if j = 0 then 0 else natDictGet j2len (j - 1)) + 1
      let new2 := new ++ [(j, k)]
      let best2 := if best.2.2 < k then (i + 1 - k, j + 1 - k, k) else best
      flmInner j2len blo bhi i js new2 best2

/-- Outer loop of find_longest_match over i in [alo, ahi). -/
def flmOuter (a : Chars) (b2j : List (Char × List Nat)) (blo bhi : Nat) :
    Nat → Nat → List (Nat × Nat) → Nat × Nat × Nat → Nat × Nat × Nat
  | _, 0, _, best => best
  | i, cnt + 1, j2len, best =>
    let r := flmInner j2len blo bhi i (b2jGet b2j (a.getD i ' ')) [] best
    flmOuter a b2j blo bhi (i + 1) cnt r.1 r.2

/-- First while loop: extend the best block backwards over equal
characters (the junk checks vanish because the junk sets are empty). -/
def flmExtendBack (a b : Chars) (alo blo : Nat) :
    Nat → Nat × Nat × Nat → Nat × Nat × Nat
  | 0, best => best
  | fuel + 1, (bi, bj, bs) =>
    if alo < bi ∧ blo < bj ∧ a.getD (bi - 1) ' ' = b.getD (bj - 1) '\n' then
      flmExtendBack a b alo blo fuel (bi - 1, bj - 1, bs + 1)
    else (bi, bj, bs)

/-- Second while loop: extend the best block forwards. -/
def flmExtendFwd (a b : Chars) (ahi bhi : Nat) :
    Nat → Nat × Nat × Nat → Nat × Nat × Nat
  | 0, best => best
  | fuel + 1, (bi, bj, bs) =>
    if bi + bs < ahi ∧ bj + bs < bhi ∧ a.getD (bi + bs) ' ' = b.getD (bj + bs) '\n' then
      flmExtendFwd a b ahi bhi fuel (bi, bj, bs + 1)
    else (bi, bj, bs)

/-- find_longest_match on the slice a[alo:ahi] × b[blo:bhi]. -/
def findLongestMatch (a b : Chars) (b2j : List (Char × List Nat))
    (alo ahi blo bhi : Nat) : Nat × Nat × Nat :=
  let best := flmOuter a b2j blo bhi alo (ahi - alo) [] (alo, blo, 0)
  let best := flmExtendBack a b alo blo best.1 best
  flmExtendFwd a b ahi bhi (ahi + bhi) best

/-- Total size of all matching blocks (the divide and conquer of
get_matching_blocks; merging adjacent blocks does not change the sum). -/
def blocksSum (a b : Chars) (b2j : List (Char × List Nat)) :
    Nat → Nat → Nat → Nat → Nat → Nat
  | 0, _, _, _, _ => 0
  | fuel + 1, alo, ahi, blo, bhi =>
    let r := findLongestMatch a b b2j alo ahi blo bhi
    let bi := r.1
    let bj := r.2.1
    let bs := r.2.2
    if bs = 0 then 0
    else
      bs +
      (if alo < bi ∧ blo < bj then blocksSum a b b2j fuel alo bi blo bj else 0) +
      (if bi + bs < ahi ∧ bj + bs < bhi then
        blocksSum a b b2j fuel (bi + bs) ahi (bj + bs) bhi else 0)

/-- Ratios are modelled as exact fractions (numerator, denominator);
comparisons cross-multiply.  The float thresholds 0.8 become 4/5; no
comparison made by the claims sits at a float-rounding boundary. -/
abbrev Frac := Nat × Nat

def fracLt (a b : Frac) : Bool := a.1 * b.2 < b.1 * a.2

def fracLe (a b : Frac) : Bool := a.1 * b.2 ≤ b.1 * a.2

/-- SequenceMatcher(None, a, b).ratio() = 2M / (len a + len b). -/
def seqRatio (a b : Chars) : Frac :=
  let m := blocksSum a b (b2jBuild b) (a.length + b.length + 1) 0 a.length 0 b.length
  (2 * m, a.length + b.length)

/-! ## Data models (processing/models.py) -/

inductive ContentType where
  | prose
  | table
  | list
  | code_block
  | heading
  | mixed
deriving DecidableEq, Repr

structure TOCItem where
  level : Nat
  title : String
  page_number : Nat
deriving DecidableEq, Repr

structure Chunk where
  content : String
  section_path : List String
  section_level : Nat
  page_number : Nat
  content_type : ContentType
  preceding_section : Option String := none
  following_section : Option String := none
  has_tables : Bool := false
  has_code_blocks : Bool := false
  chunk_index : Nat := 0
deriving DecidableEq, Repr

/-! ## HeadingFixer (post_processing/heading_fixer.py) -/

structure HeadingFixerConfig where
  min_match_ratio : Frac := (4, 5)
  remove_bold_from_headings : Bool := true
  add_missing_headings : Bool := false
deriving Repr

/-- Matcher for re.sub(r'\*+', '', ...): one maximal star run. -/
def mStarRun (cs : Chars) : Option SubMatch :=
  match spanB (fun c => c == '*') cs with
  | ([], _) => none
  | (run, _) => some (run.length, [])

/-- HeadingFixer._normalize_title. -/
def normalizeTitle (title : Chars) : Chars :=
  let t := reSub false mStarRun title
  let t := joinSep [' '] (pySplitWhite t)
  pyStrip (pyLower t)

/-- HeadingFixer._build_toc_map: a Python dict as an insertion-ordered
association list; inserting an existing key overwrites in place. -/
def dictInsert (m : List (Chars × Nat)) (k : Chars) (v : Nat) :
    List (Chars × Nat) :=
  if m.any (fun p => p.1 == k) then
    m.map (fun p => if p.1 == k then (p.1, v) else p)
  else m ++ [(k, v)]

def buildTocMap (toc : List TOCItem) : List (Chars × Nat) :=
  toc.foldl (fun m item => dictInsert m (normalizeTitle item.title.data) item.level) []

def dictLookup (m : List (Chars × Nat)) (k : Chars) : Option Nat :=
  (m.find? (fun p => p.1 == k)).map (fun p => p.2)

/-- HeadingFixer._find_toc_level: exact lookup, then the fuzzy scan that
keeps the best ratio at or above the threshold (strict improvement, so
the first of equal ratios in insertion order wins). -/
def findTocLevel (tm : List (Chars × Nat)) (minRatio : Frac) (headingText : Chars) :
    Option Nat :=
  let n := normalizeTitle headingText
  match dictLookup tm n with
  | some lvl => some lvl
  | none =>
    (tm.foldl
      (fun st p =>
        let r := seqRatio n p.1
        if fracLt st.1 r && fracLe minRatio r then (r, some p.2) else st)
      (((0, 1) : Frac), (none : Option Nat))).2

/-- Pattern 1 of _merge_split_headings:
^(#\x7b1,6\x7d)\s+(\d+)\s*\n+\s*#\x7b1,6\x7d\s+([^\n]+), replaced by
the three captures separated by single spaces. -/
def mMergeP1 (cs : Chars) : Option SubMatch :=
  greedyClsUpTo (fun c => c == '#') 1 6 (fun revH r1 =>
    greedyCls pyWS 1 (fun _ r2 =>
      greedyCls isDigitC 1 (fun revD r3 =>
        greedyCls pyWS 0 (fun _ r4 =>
          greedyCls (fun c => c == '\n') 1 (fun _ r5 =>
            greedyCls pyWS 0 (fun _ r6 =>
              greedyClsUpTo (fun c => c == '#') 1 6 (fun _ r7 =>
                greedyCls pyWS 1 (fun _ r8 =>
                  greedyCls notNL 1 (fun revT r9 =>
                    some (cs.length - r9.length,
                      revH.reverse ++ ' ' :: revD.reverse ++ ' ' :: revT.reverse))
                    r8) r7) r6) r5) r4) r3) r2) r1) cs

/-- Pattern 2 of _merge_split_headings:
^(#\x7b1,6\x7d)\s+(\d+)\s*\n+\s*([A-Z][^\n]\x7b1,100\x7d)$. -/
def mMergeP2 (cs : Chars) : Option SubMatch :=
  greedyClsUpTo (fun c => c == '#') 1 6 (fun revH r1 =>
    greedyCls pyWS 1 (fun _ r2 =>
      greedyCls isDigitC 1 (fun revD r3 =>
        greedyCls pyWS 0 (fun _ r4 =>
          greedyCls (fun c => c == '\n') 1 (fun _ r5 =>
            greedyCls pyWS 0 (fun _ r6 =>
              match r6 with
              | [] => none
              | c :: r7 =>
                if 'A' ≤ c ∧ c ≤ 'Z' then
                  greedyClsUpTo notNL 1 100 (fun revT r8 =>
                    if atEolM r8 then
                      some (cs.length - r8.length,
                        revH.reverse ++ ' ' :: revD.reverse ++ ' ' ::
                          c :: revT.reverse)
                    else none) r7
                else none) r5) r4) r3) r2) r1) cs

/-- Pattern 3 of _merge_split_headings:
^\s*\*\*(\d+)\*\*\s*\n+\s*(#\x7b1,6\x7d)\s+([^\n]+), replaced by
hashes, number, then title. -/
def mMergeP3 (cs : Chars) : Option SubMatch :=
  greedyCls pyWS 0 (fun _ r1 =>
    litM ['*', '*'] (fun r2 =>
      greedyCls isDigitC 1 (fun revD r3 =>
        litM ['*', '*'] (fun r4 =>
          greedyCls pyWS 0 (fun _ r5 =>
            greedyCls (fun c => c == '\n') 1 (fun _ r6 =>
              greedyCls pyWS 0 (fun _ r7 =>
                greedyClsUpTo (fun c => c == '#') 1 6 (fun revH r8 =>
                  greedyCls pyWS 1 (fun _ r9 =>
                    greedyCls notNL 1 (fun revT r10 =>
                      some (cs.length - r10.length,
                        revH.reverse ++ ' ' :: revD.reverse ++ ' ' :: revT.reverse))
                      r9) r8) r7) r6) r5) r4) r3) r2) r1) cs

/-- HeadingFixer._merge_split_headings: the three MULTILINE re.subs in
source order. -/
def mergeSplitHeadings (cs : Chars) : Chars :=
  reSub true mMergeP3 (reSub true mMergeP2 (reSub true mMergeP1 cs))

/-- re.match(r'^(#\x7b1,6\x7d)\s+(.+)$', line) on a single line (the
line contains no newline, so . and the anchors are plain). -/
def headingLineMatch (line : Chars) : Option (Chars × Chars) :=
  greedyClsUpTo (fun c => c == '#') 1 6 (fun revH r1 =>
    greedyCls pyWS 1 (fun _ r2 =>
      greedyCls notNL 1 (fun revT r3 =>
        if r3.isEmpty then some (revH.reverse, revT.reverse) else none) r2) r1) line

/-- re.match(r'^\s*\*\*([^*]+)\*\*\s*$', line) on a single line. -/
def boldLineMatch (line : Chars) : Option Chars :=
  greedyCls pyWS 0 (fun _ r1 =>
    litM ['*', '*'] (fun r2 =>
      greedyCls (fun c => !(c == '*')) 1 (fun revT r3 =>
        litM ['*', '*'] (fun r4 =>
          greedyCls pyWS 0 (fun _ r5 =>
            if r5.isEmpty then some revT.reverse else none) r4) r3) r2) r1) line

/-- Matcher for re.sub(r'\*+([^*]+)\*+', r'\1', ...). -/
def mInlineBold (cs : Chars) : Option SubMatch :=
  greedyCls (fun c => c == '*') 1 (fun _ r1 =>
    greedyCls (fun c => !(c == '*')) 1 (fun revT r2 =>
      greedyCls (fun c => c == '*') 1 (fun _ r3 =>
        some (cs.length - r3.length, revT.reverse)) r2) r1) cs

/-- The body of the per-line loop of HeadingFixer.fix_headings. -/
def fixHeadingLine (tm : List (Chars × Nat)) (cfg : HeadingFixerConfig)
    (line : Chars) : Chars :=
  match headingLineMatch line with
  | some (hashes, headingText) =>
    let cleanText :=
      if cfg.remove_bold_from_headings then
        pyStrip (reSub false mInlineBold headingText)
      else headingText
    match findTocLevel tm cfg.min_match_ratio headingText with
    | some lvl => List.replicate lvl '#' ++ ' ' :: cleanText
    | none =>
      if cfg.remove_bold_from_headings then hashes ++ ' ' :: cleanText
      else line
  | none =>
    match boldLineMatch line with
    | some bText =>
      let text := pyStrip bText
      if (String.toList "table").isPrefixOf (pyLower text) then line
      else
        match findTocLevel tm cfg.min_match_ratio text with
        | some lvl => List.replicate lvl '#' ++ ' ' :: text
        | none => line
    | none => line

/-- HeadingFixer.fix_headings: normalize line endings, merge split
headings, rewrite each line, then merge split headings again. -/
def fixHeadings (toc : List TOCItem) (cfg : HeadingFixerConfig)
    (markdown : Chars) : Chars :=
  let tm := buildTocMap toc
  let md := replaceAll ['\r', '\n'] ['\n'] markdown
  let md := replaceAll ['\r'] ['\n'] md
  let md := mergeSplitHeadings md
  let lines := splitOnChar '\n' md
  let fixed := joinSep ['\n'] (lines.map (fixHeadingLine tm cfg))
  mergeSplitHeadings fixed

/-! ## MarkdownCleanup (post_processing/markdown_cleanup.py) -/

structure CleanupConfig where
  max_consecutive_blanks : Nat := 1
  remove_page_footers : Bool := true
  remove_orphan_page_numbers : Bool := true
  normalize_hr : Bool := true
  fix_broken_sentences : Bool := true
  cleanup_bold : Bool := true
  trim_trailing_whitespace : Bool := true
  remove_redundant_toc : Bool := true
deriving Repr

/-- The recurring section names the footer callback checks. -/
def commonSections : List String :=
  ["Contents", "Overview of iDRAC", "Logging in to iDRAC",
   "Setting up managed system", "Configuring iDRAC",
   "Managing logs", "Troubleshooting", "Chapter", "Rev.", "Revision history",
   "December 2025", "Rev. A11"]

/-- The footer_callback decision: identify which group is the number and
which the text, then remove if the text matches a common section
(case-insensitive substring) or is shorter than 50 characters. -/
def footerShouldRemove (g1 g2 : Chars) : Bool :=
  let tn : Option (Chars × Chars) :=
    if pyIsDigitStr g1 && !pyIsDigitStr g2 then some (g2, g1)
    else if pyIsDigitStr g2 && !pyIsDigitStr g1 then some (g1, g2)
    else if pyIsDigitStr (pyStrip g1) then some (g2, g1)
    else if pyIsDigitStr (pyStrip g2) then some (g1, g2)
    else none
  match tn with
  | none => false
  | some (text, num) =>
    if text.isEmpty || num.isEmpty then false
    else
      let ct := pyStrip text
      commonSections.any (fun c => containsSub (pyLower c.data) (pyLower ct)) ||
        ct.length < 50

/-- Footer pattern A: ^\s*\*\*(.*?)\*\*\s+\*\*(\d\x7b1,4\x7d)\*\*\s*$
with the callback deciding between deletion and keeping the match. -/
def mFooterA (cs : Chars) : Option SubMatch :=
  greedyCls pyWS 0 (fun _ r1 =>
    litM ['*', '*'] (fun r2 =>
      lazyCls notNL (fun revT r3 =>
        litM ['*', '*'] (fun r4 =>
          greedyCls pyWS 1 (fun _ r5 =>
            litM ['*', '*'] (fun r6 =>
              greedyClsUpTo isDigitC 1 4 (fun revD r7 =>
                litM ['*', '*'] (fun r8 =>
                  greedyCls pyWS 0 (fun _ r9 =>
                    if atEolM r9 then
                      let n := cs.length - r9.length
                      if footerShouldRemove revT.reverse revD.reverse then
                        some (n, [])
                      else some (n, cs.take n)
                    else none) r8) r7) r6) r5) r4) r3) [] r2) r1) cs

/-- Footer pattern B: ^\s*\*\*(\d\x7b1,4\x7d)\*\*\s+\*\*(.*?)\*\*\s*$. -/
def mFooterB (cs : Chars) : Option SubMatch :=
  greedyCls pyWS 0 (fun _ r1 =>
    litM ['*', '*'] (fun r2 =>
      greedyClsUpTo isDigitC 1 4 (fun revD r3 =>
        litM ['*', '*'] (fun r4 =>
          greedyCls pyWS 1 (fun _ r5 =>
            litM ['*', '*'] (fun r6 =>
              lazyCls notNL (fun revT r7 =>
                litM ['*', '*'] (fun r8 =>
                  greedyCls pyWS 0 (fun _ r9 =>
                    if atEolM r9 then
                      let n := cs.length - r9.length
                      if footerShouldRemove revD.reverse revT.reverse then
                        some (n, [])
                      else some (n, cs.take n)
                    else none) r8) r7) [] r6) r5) r4) r3) r2) r1) cs

/-- Footer pattern 3: ^\s*\*\*\d\x7b1,4\x7d\*\*\s*$, removed outright. -/
def mFooterNum (cs : Chars) : Option SubMatch :=
  greedyCls pyWS 0 (fun _ r1 =>
    litM ['*', '*'] (fun r2 =>
      greedyClsUpTo isDigitC 1 4 (fun _ r3 =>
        litM ['*', '*'] (fun r4 =>
          greedyCls pyWS 0 (fun _ r5 =>
            if atEolM r5 then some (cs.length - r5.length, []) else none)
            r4) r3) r2) r1) cs

/-- MarkdownCleanup._remove_page_footers. -/
def removePageFooters (cs : Chars) : Chars :=
  let r := replaceAll ['\r', '\n'] ['\n'] cs
  let r := replaceAll ['\r'] ['\n'] r
  let r := reSub true mFooterA r
  let r := reSub true mFooterB r
  reSub true mFooterNum r

/-- Orphan page number pattern: ^\d\x7b1,4\x7d\s*$. -/
def mOrphanNum (cs : Chars) : Option SubMatch :=
  greedyClsUpTo isDigitC 1 4 (fun _ r1 =>
    greedyCls pyWS 0 (fun _ r2 =>
      if atEolM r2 then some (cs.length - r2.length, []) else none) r1) cs

/-- MarkdownCleanup._remove_orphan_page_numbers. -/
def removeOrphanPageNumbers (cs : Chars) : Chars :=
  reSub true mOrphanNum cs

/-- The skip test at the top of the _fix_broken_sentences loop, applied
to the stripped line. -/
def fixBrokenSkip (ls : Chars) : Bool :=
  ls.isEmpty ||
  (String.toList "#").isPrefixOf ls ||
  (String.toList "-").isPrefixOf ls ||
  ((String.toList "*").isPrefixOf ls && !(String.toList "**").isPrefixOf ls) ||
  (String.toList "|").isPrefixOf ls ||
  (String.toList "```").isPrefixOf ls ||
  (String.toList ">").isPrefixOf ls

/-- The next-line test of _fix_broken_sentences, applied to the stripped
next line. -/
def fixBrokenNextOk (nls : Chars) : Bool :=
  !nls.isEmpty &&
  !(String.toList "#").isPrefixOf nls &&
  !(String.toList "-").isPrefixOf nls &&
  !(String.toList "|").isPrefixOf nls &&
  !(String.toList "```").isPrefixOf nls &&
  !(String.toList ">").isPrefixOf nls

/-- The while loop of _fix_broken_sentences: join a line ending in a
hyphen with a lower-case continuation, blanking the joined line. -/
def fixBrokenLoop : Nat → List Chars → List Chars
  | 0, ls => ls
  | _ + 1, [] => []
  | fuel + 1, l :: rest =>
    if fixBrokenSkip (pyStrip l) then l :: fixBrokenLoop fuel rest
    else
      match rest with
      | [] => [l]
      | nl :: rest2 =>
        let nls := pyStrip nl
        if fixBrokenNextOk nls &&
            (['-'].isSuffixOf (pyRStrip l)) &&
            (match nls with
              | c :: _ => c.isLower
              | [] => false) then
          ((pyRStrip l).dropLast ++ nls) :: fixBrokenLoop fuel ([] :: rest2)
        else l :: fixBrokenLoop fuel rest

/-- MarkdownCleanup._fix_broken_sentences. -/
def fixBrokenSentences (cs : Chars) : Chars :=
  let lines := splitOnChar '\n' cs
  joinSep ['\n'] (fixBrokenLoop (lines.length + 1) lines)

/-- Double-bold pattern: \*\x7b4,\x7d([^*]+)\*\x7b4,\x7d replaced by
**\1**. -/
def mQuadBold (cs : Chars) : Option SubMatch :=
  greedyCls (fun c => c == '*') 4 (fun _ r1 =>
    greedyCls (fun c => !(c == '*')) 1 (fun revT r2 =>
      greedyCls (fun c => c == '*') 4 (fun _ r3 =>
        some (cs.length - r3.length,
          '*' :: '*' :: revT.reverse ++ ['*', '*'])) r2) r1) cs

/-- MarkdownCleanup._cleanup_bold. -/
def cleanupBold (cs : Chars) : Chars :=
  reSub false mQuadBold cs

/-- Horizontal rule pattern: ^[\-_\*]\x7b3,\x7d\s*$ replaced by three
dashes. -/
def mHrLine (cs : Chars) : Option SubMatch :=
  greedyCls (fun c => c == '-' || c == '_' || c == '*') 3 (fun _ r1 =>
    greedyCls pyWS 0 (fun _ r2 =>
      if atEolM r2 then some (cs.length - r2.length, ['-', '-', '-'])
      else none) r1) cs

/-- MarkdownCleanup._normalize_hr. -/
def normalizeHr (cs : Chars) : Chars :=
  reSub true mHrLine cs

/-- MarkdownCleanup._trim_trailing_whitespace. -/
def trimTrailingWhitespace (cs : Chars) : Chars :=
  joinSep ['\n'] ((splitOnChar '\n' cs).map pyRStrip)

/-- TOC line pattern: ^.*?\.\.\.\.\.+.*?\d+.*$ (a dot leader of at least
five dots with a digit somewhere after it), removed. -/
def mTocLine (cs : Chars) : Option SubMatch :=
  lazyCls notNL (fun _ r1 =>
    litM ['.', '.', '.', '.'] (fun r2 =>
      greedyCls (fun c => c == '.') 1 (fun _ r3 =>
        lazyCls notNL (fun _ r4 =>
          greedyCls isDigitC 1 (fun _ r5 =>
            greedyCls notNL 0 (fun _ r6 =>
              if atEolM r6 then some (cs.length - r6.length, []) else none)
              r5) r4) [] r3) r2) r1) [] cs

/-- Bold block pattern \*\*.*?\*\* under re.DOTALL, with the aggressive
TOC callback: dropped when it holds a dot leader and a digit. -/
def mBoldBlockToc (cs : Chars) : Option SubMatch :=
  litM ['*', '*'] (fun r1 =>
    lazyCls (fun _ => true) (fun _ r2 =>
      litM ['*', '*'] (fun r3 =>
        let n := cs.length - r3.length
        let text := cs.take n
        if containsSub ['.', '.', '.', '.', '.'] text && text.any isDigitC then
          some (n, [])
        else some (n, text)) r2) [] r1) cs

/-- Residual dot-leader line: ^\s*\.\.\.\.\.\.+\s*$ (at least six dots),
removed. -/
def mDotsOnly (cs : Chars) : Option SubMatch :=
  greedyCls pyWS 0 (fun _ r1 =>
    litM ['.', '.', '.', '.', '.'] (fun r2 =>
      greedyCls (fun c => c == '.') 1 (fun _ r3 =>
        greedyCls pyWS 0 (fun _ r4 =>
          if atEolM r4 then some (cs.length - r4.length, []) else none)
          r3) r2) r1) cs

/-- The merge_cleaner inner helper of _remove_redundant_toc. -/
def mergeCleaner (l : Chars) : Chars :=
  if containsSub ['.', '.', '.', '.', '.'] l && l.any isDigitC then [] else l

/-- MarkdownCleanup._remove_redundant_toc. -/
def removeRedundantToc (cs : Chars) : Chars :=
  let r := reSub true mTocLine cs
  let r := reSub false mBoldBlockToc r
  let r := reSub true mDotsOnly r
  joinSep ['\n'] ((splitOnChar '\n' r).map mergeCleaner)

/-- The bullet characters of _normalize_bullets. -/
def bulletC (c : Char) : Bool :=
  c == '●' || c == '○' || c == '■' || c == '•' ||
  c == '\uF0B7' || c == '▪' || c == '‣' || c == '⁃'

/-- One <br/?>\s* unit of bullet rule 1. -/
def brUnit (k : Chars → Option α) (cs : Chars) : Option α :=
  match litM ['<', 'b', 'r', '/', '>']
      (fun r => greedyCls pyWS 0 (fun _ r2 => some r2) r) cs with
  | some r2 => k r2
  | none =>
    match litM ['<', 'b', 'r', '>']
        (fun r => greedyCls pyWS 0 (fun _ r2 => some r2) r) cs with
    | some r2 => k r2
    | none => none

/-- One or more <br/?>\s* units (the + of bullet rule 1); the pattern
ends there, so plain greedy unit consumption suffices. -/
def brUnits : Nat → Chars → Option Chars
  | 0, _ => none
  | fuel + 1, cs =>
    brUnit (fun rest =>
      match brUnits fuel rest with
      | some r2 => some r2
      | none => some rest) cs

/-- Bullet rule 1: BULLET\s*(?:<br/?>\s*)+ replaced by a dash. -/
def mBullet1 (cs : Chars) : Option SubMatch :=
  match cs with
  | [] => none
  | c :: rest =>
    if bulletC c then
      greedyCls pyWS 0 (fun _ r1 =>
        match brUnits (r1.length + 1) r1 with
        | some r2 => some (cs.length - r2.length, ['-', ' '])
        | none => none) rest
    else none

/-- Bullet rule 2: (^|[| \t])BULLET[ \t]* replaced by the first group
then a dash; the first alternative is the MULTILINE ^. -/
def mBullet2 (atLS : Bool) (cs : Chars) : Option SubMatch :=
  let tailPart : Chars → Option Nat := fun s =>
    match s with
    | [] => none
    | c :: rest =>
      if bulletC c then
        greedyCls (fun d => d == ' ' || d == '\t') 0
          (fun _ r2 => some (cs.length - r2.length)) rest
      else none
  match (if atLS then (tailPart cs).map (fun n => (n, ['-', ' '])) else none) with
  | some r => some r
  | none =>
    match cs with
    | [] => none
    | g :: rest =>
      if g == '|' || g == ' ' || g == '\t' then
        match
          (match rest with
            | [] => none
            | c :: rest2 =>
              if bulletC c then
                greedyCls (fun d => d == ' ' || d == '\t') 0
                  (fun _ r2 => some (cs.length - r2.length)) rest2
              else none) with
        | some n => some (n, [g, '-', ' '])
        | none => none
      else none

/-- Bullet rule 3: ^- +- replaced by a dash (one layer per run). -/
def mBullet3 (cs : Chars) : Option SubMatch :=
  litM ['-'] (fun r1 =>
    greedyCls (fun c => c == ' ') 1 (fun _ r2 =>
      litM ['-', ' '] (fun r3 =>
        some (cs.length - r3.length, ['-', ' '])) r2) r1) cs

/-- Bullet rule 4: \| +- +- with the pipe kept. -/
def mBullet4 (cs : Chars) : Option SubMatch :=
  litM ['|'] (fun r1 =>
    greedyCls (fun c => c == ' ') 1 (fun _ r2 =>
      litM ['-'] (fun r3 =>
        greedyCls (fun c => c == ' ') 1 (fun _ r4 =>
          litM ['-', ' '] (fun r5 =>
            some (cs.length - r5.length, ['|', ' ', '-', ' '])) r4) r3) r2) r1) cs

/-- MarkdownCleanup._normalize_bullets. -/
def normalizeBullets (cs : Chars) : Chars :=
  let r := reSub false mBullet1 cs
  let r := reSubP mBullet2 r
  let r := reSub true mBullet3 r
  reSub false mBullet4 r

/-- Lookahead of the list-tightening pattern:
(?=[ \t]*([-*+]|\d+\.)). -/
def listLookahead (cs : Chars) : Bool :=
  let s := spanB (fun c => c == ' ' || c == '\t') cs
  match s.2 with
  | [] => false
  | c :: rest =>
    if c == '-' || c == '*' || c == '+' then true
    else
      match spanB isDigitC (c :: rest) with
      | ([], _) => false
      | (_, r2) =>
        match r2 with
        | [] => false
        | d :: _ => d == '.'

/-- Collect ([ \t]*\n) units greedily, returning them innermost last. -/
def blankUnits : Nat → Chars → List Chars × Chars
  | 0, cs => ([], cs)
  | fuel + 1, cs =>
    let s := spanB (fun c => c == ' ' || c == '\t') cs
    match s.2 with
    | '\n' :: rest =>
      let r := blankUnits fuel rest
      ((s.1 ++ ['\n']) :: r.1, r.2)
    | _ => ([], cs)

/-- Back off whole blank-line units (at least one must remain) until the
lookahead holds. -/
def blankBackOff : List Chars → Chars → Option Chars
  | [], _ => none
  | u :: us, rest =>
    if listLookahead rest then some rest
    else blankBackOff us (u ++ rest)
-- note: units are consumed innermost first when restoring, so the list
-- is reversed by the caller.

/-- Group 1 of the list-tightening pattern: [ \t]*[-*+] or \d+\. -/
def listMarker (cs : Chars) : Option (Chars × Chars) :=
  let s := spanB (fun c => c == ' ' || c == '\t') cs
  match s.2 with
  | c :: rest =>
    if c == '-' || c == '*' || c == '+' then some (s.1 ++ [c], rest)
    else
      match spanB isDigitC cs with
      | ([], _) => none
      | (ds, r2) =>
        match r2 with
        | '.' :: r3 => some (ds ++ ['.'], r3)
        | _ => none
  | [] => none

/-- The list-tightening pattern of _normalize_blank_lines:
^([ \t]*[-*+]|\d+\.)[ \t]+(.*?)\n([ \t]*\n)+(?=...), replaced by
\1 \2\n. -/
def mListTighten (cs : Chars) : Option SubMatch :=
  match listMarker cs with
  | none => none
  | some (g1, r1) =>
    greedyCls (fun c => c == ' ' || c == '\t') 1 (fun _ r2 =>
      lazyCls notNL (fun revT r3 =>
        match r3 with
        | '\n' :: r4 =>
          let bu := blankUnits (r4.length + 1) r4
          match bu.1 with
          | [] => none
          | _ =>
            match blankBackOff bu.1.reverse bu.2 with
            | some rest =>
              some (cs.length - rest.length, g1 ++ ' ' :: revT.reverse ++ ['\n'])
            | none => none
        | _ => none) [] r2) r1

/-- Trailing whitespace pattern [ \t]+$ (not line-anchored). -/
def mTrailWS (cs : Chars) : Option SubMatch :=
  greedyCls (fun c => c == ' ' || c == '\t') 1 (fun _ r1 =>
    if atEolM r1 then some (cs.length - r1.length, []) else none) cs

/-- MarkdownCleanup._normalize_blank_lines. -/
def normalizeBlankLines (cs : Chars) : Chars :=
  let r := reSub true mListTighten cs
  let r := reSub false mTrailWS r
  let r := r.dropWhile (fun c => c == '\n')
  pyRStrip r ++ ['\n']

/-- MarkdownCleanup.clean: the full default pipeline in source order. -/
def cleanWith (cfg : CleanupConfig) (markdown : Chars) : Chars :=
  let r := markdown
  let r := if cfg.remove_page_footers then removePageFooters r else r
  let r := if cfg.remove_orphan_page_numbers then removeOrphanPageNumbers r else r
  let r := if cfg.fix_broken_sentences then fixBrokenSentences r else r
  let r := if cfg.cleanup_bold then cleanupBold r else r
  let r := if cfg.normalize_hr then normalizeHr r else r
  let r := if cfg.trim_trailing_whitespace then trimTrailingWhitespace r else r
  let r := if cfg.remove_redundant_toc then removeRedundantToc r else r
  let r := normalizeBullets r
  normalizeBlankLines r

/-- clean under the default configuration. -/
def clean (markdown : Chars) : Chars := cleanWith {} markdown

/-! ## StructureAwareSegmenter (post_processing/segmenter.py) -/

structure SegmenterConfig where
  target_chunk_size : Nat := 2000
  max_chunk_size : Nat := 4000
  min_chunk_size : Nat := 200
  preserve_tables : Bool := true
  preserve_code_blocks : Bool := true
deriving DecidableEq, Repr

/-- Heading pattern ^(#\x7b1,6\x7d)\s+(.+)$ compiled with re.MULTILINE:
\s+ may span newlines, the title is the non-newline run, $ is the
MULTILINE end of line.  Captures (level, title characters). -/
def mHeading (cs : Chars) : Option (Nat × (Nat × Chars)) :=
  greedyClsUpTo (fun c => c == '#') 1 6 (fun revH r1 =>
    greedyCls pyWS 1 (fun _ r2 =>
      greedyCls notNL 1 (fun revT r3 =>
        if atEolM r3 then
          some (cs.length - r3.length, (revH.length, revT.reverse))
        else none) r2) r1) cs

/-- A section as produced by _split_by_headings. -/
structure PySection where
  title : Chars
  level : Nat
  content : Chars
  path : List Chars
deriving DecidableEq, Repr

/-- The loop of _split_by_headings over the heading matches, carrying
the path stack (kept top-first here; Python keeps it bottom-first). -/
def buildSections (md : Chars) :
    List (Nat × Nat × (Nat × Chars)) → List (Nat × Chars) → List PySection
  | [], _ => []
  | (pos, n, (lvl, title)) :: rest, stack =>
    let contentStart := pos + n
    let contentEnd :=
      match rest with
      | (p2, _, _) :: _ => p2
      | [] => md.length
    let content := pyStrip ((md.drop contentStart).take (contentEnd - contentStart))
    let title2 := pyStrip title
    let stack2 := stack.dropWhile (fun p => lvl ≤ p.1)
    let path := (stack2.map (fun p => p.2)).reverse
    { title := title2, level := lvl,
      content := List.replicate lvl '#' ++ ' ' :: title2 ++ '\n' :: '\n' :: content,
      path := path } ::
      buildSections md rest ((lvl, title2) :: stack2)

/-- StructureAwareSegmenter._split_by_headings. -/
def splitByHeadings (md : Chars) : List PySection :=
  let ms := reFind true mHeading md
  if ms.isEmpty then
    [{ title := String.toList "Document", level := 0, content := md, path := [] }]
  else buildSections md ms []

/-- Pattern \|.+\| — a pipe-delimited stretch on one line. -/
def mPipePipe (cs : Chars) : Option SubMatch :=
  litM ['|'] (fun r1 =>
    greedyCls notNL 1 (fun _ r2 =>
      litM ['|'] (fun r3 => some (cs.length - r3.length, [])) r2) r1) cs

/-- Pattern for a fenced code block (triple backticks, lazily matching any characters inside). -/
def mCodeFence (cs : Chars) : Option SubMatch :=
  litM ['`', '`', '`'] (fun r1 =>
    lazyCls (fun _ => true) (fun _ r2 =>
      litM ['`', '`', '`'] (fun r3 =>
        some (cs.length - r3.length, [])) r2) [] r1) cs

/-- The separator-row character class [-:\| ]. -/
def sepC (c : Char) : Bool := c == '-' || c == ':' || c == '|' || c == ' '

/-- One table row \|[^\n]+\|\n. -/
def rowM (k : Chars → Option α) (cs : Chars) : Option α :=
  litM ['|'] (fun r1 =>
    greedyCls notNL 1 (fun _ r2 =>
      litM ['|', '\n'] k r2) r1) cs

/-- The separator row \|[-:\| ]+\|\n. -/
def sepRowM (k : Chars → Option α) (cs : Chars) : Option α :=
  litM ['|'] (fun r1 =>
    greedyCls sepC 1 (fun _ r2 =>
      litM ['|', '\n'] k r2) r1) cs

/-- Zero or more data rows, consumed greedily (the table pattern ends
with this star, so no backtracking into it is ever needed). -/
def dataRowsM : Nat → Chars → Chars
  | 0, cs => cs
  | fuel + 1, cs =>
    match rowM (fun r => some r) cs with
    | some r => dataRowsM fuel r
    | none => cs

/-- The table pattern
(\|[^\n]+\|\n\|[-:\| ]+\|\n(?:\|[^\n]+\|\n)*). -/
def mTableFull (cs : Chars) : Option (Nat × Unit) :=
  rowM (fun r1 =>
    sepRowM (fun r2 =>
      let r3 := dataRowsM (r2.length + 1) r2
      some (cs.length - r3.length, ())) r1) cs

/-- Pattern \|.+\|\n\|[-:\| ]+\| — the table test of _detect_content_type. -/
def mTableHead (cs : Chars) : Option SubMatch :=
  litM ['|'] (fun r1 =>
    greedyCls notNL 1 (fun _ r2 =>
      litM ['|', '\n', '|'] (fun r3 =>
        greedyCls sepC 1 (fun _ r4 =>
          litM ['|'] (fun r5 => some (cs.length - r5.length, [])) r4) r3) r2) r1) cs

/-- Pattern ^[\s]*[-*+]\s — a bullet list line (the leading [\s]* may span
newlines under re.MULTILINE). -/
def mListBullet (cs : Chars) : Option SubMatch :=
  greedyCls pyWS 0 (fun _ r1 =>
    match r1 with
    | c :: r2 =>
      if c == '-' || c == '*' || c == '+' then
        match r2 with
        | d :: r3 => if pyWS d then some (cs.length - r3.length, []) else none
        | [] => none
      else none
    | [] => none) cs

/-- Pattern ^[\s]*\d+\.\s — a numbered list line. -/
def mListNumbered (cs : Chars) : Option SubMatch :=
  greedyCls pyWS 0 (fun _ r1 =>
    greedyCls isDigitC 1 (fun _ r2 =>
      litM ['.'] (fun r3 =>
        match r3 with
        | d :: r4 => if pyWS d then some (cs.length - r4.length, []) else none
        | [] => none) r2) r1) cs

/-- StructureAwareSegmenter._detect_content_type. -/
def detectContentType (content : Chars) : ContentType :=
  if reSearch mTableHead content then ContentType.table
  else if reSearch mCodeFence content then ContentType.code_block
  else
    let listLines := (reFind true mListBullet content).length +
      (reFind true mListNumbered content).length
    let totalLines := (content.filter (fun c => c == '\n')).length + 1
    if 2 * listLines > totalLines then ContentType.list
    else
      let st := pyStrip content
      if (headingLineMatch st).isSome && !(st.contains '\n') then
        ContentType.heading
      else ContentType.prose

/-- Protected atomic elements: (placeholder, original text, type). -/
abbrev Protected := List (Chars × Chars × ContentType)

/-- Restore protected elements in content (_restore_protected). -/
def restoreProtected (prot : Protected) (content : Chars) : Chars :=
  prot.foldl (fun c p => replaceAll p.1 p.2.1 c) content

/-- Numeric placeholder name __TABLE_i__ or __CODE_i__. -/
def placeholderName (stem : String) (i : Nat) : Chars :=
  String.toList ("__" ++ stem ++ "_" ++ toString i ++ "__")

/-- re.split(r'\n\n+', s). -/
def splitParasAux : Nat → Chars → Chars → List Chars
  | 0, acc, rest => [acc.reverse ++ rest]
  | _ + 1, acc, [] => [acc.reverse]
  | fuel + 1, acc, '\n' :: '\n' :: rest =>
    acc.reverse :: splitParasAux fuel [] (rest.dropWhile (fun c => c == '\n'))
  | fuel + 1, acc, c :: rest => splitParasAux fuel (c :: acc) rest

def splitParas (cs : Chars) : List Chars := splitParasAux (cs.length + 1) [] cs

/-- StructureAwareSegmenter._create_chunk. -/
def createChunk (content title : Chars) (level : Nat) (path : List Chars)
    (preceding following : Option Chars) (hasTables hasCode : Bool) : Chunk :=
  { content := String.mk content
    section_path := (path ++ [title]).map String.mk
    section_level := level
    page_number := 0
    content_type := detectContentType content
    preceding_section := preceding.map String.mk
    following_section := following.map String.mk
    has_tables := hasTables
    has_code_blocks := hasCode
    chunk_index := 0 }

/-- The paragraph-accumulation loop of _split_large_section.  The
current chunk is held in reverse; current_size mirrors the Python
running size (sum of paragraph lengths, joins not counted). -/
def accumLoop (cfg : SegmenterConfig) (prot : Protected)
    (title : Chars) (level : Nat) (path : List Chars)
    (preceding following : Option Chars) (hasTables hasCode : Bool) :
    List Chars → List Chars → Nat → List Chunk
  | [], current, _ =>
    if current.isEmpty then []
    else
      [createChunk (restoreProtected prot (joinSep ['\n', '\n'] current.reverse))
        title level path preceding following hasTables hasCode]
  | para :: rest, current, size =>
    if prot.any (fun p => p.1 == pyStrip para) then
      (if current.isEmpty then [] else
        [createChunk (restoreProtected prot (joinSep ['\n', '\n'] current.reverse))
          title level path preceding following hasTables hasCode]) ++
      (let ptype :=
        ((prot.find? (fun p => p.1 == pyStrip para)).map
          (fun p => p.2.2)).getD ContentType.prose
      [{ content := String.mk (restoreProtected prot para)
         section_path := (path ++ [title]).map String.mk
         section_level := level
         page_number := 0
         content_type := ptype
         preceding_section := preceding.map String.mk
         following_section := following.map String.mk
         has_tables := ptype = ContentType.table
         has_code_blocks := ptype = ContentType.code_block
         chunk_index := 0 }]) ++
      accumLoop cfg prot title level path preceding following hasTables hasCode
        rest [] 0
    else if cfg.target_chunk_size < size + para.length ∧ !current.isEmpty then
      createChunk (restoreProtected prot (joinSep ['\n', '\n'] current.reverse))
        title level path preceding following hasTables hasCode ::
      accumLoop cfg prot title level path preceding following hasTables hasCode
        rest [para] para.length
    else
      accumLoop cfg prot title level path preceding following hasTables hasCode
        rest (para :: current) (size + para.length)

/-- StructureAwareSegmenter._split_large_section. -/
def splitLargeSection (cfg : SegmenterConfig) (content title : Chars)
    (level : Nat) (path : List Chars) (preceding following : Option Chars)
    (hasTables hasCode : Bool) : List Chunk :=
  let tableMatches :=
    if cfg.preserve_tables then reFind false mTableFull content else []
  let protectedT : Protected :=
    (tableMatches.zip (List.range tableMatches.length)).map
      (fun p => (placeholderName "TABLE" p.2,
        ((content.drop p.1.1).take p.1.2.1, ContentType.table)))
  let working :=
    protectedT.foldl (fun w p => replaceAll p.2.1 p.1 w) content
  let codeMatches :=
    if cfg.preserve_code_blocks then reFind false (fun s => mCodeFence s) working
    else []
  let protectedC : Protected :=
    (codeMatches.zip (List.range codeMatches.length)).map
      (fun p => (placeholderName "CODE" p.2,
        ((working.drop p.1.1).take p.1.2.1, ContentType.code_block)))
  let working2 :=
    protectedC.foldl (fun w p => replaceAll p.2.1 p.1 w) working
  let prot := protectedT ++ protectedC
  accumLoop cfg prot title level path preceding following hasTables hasCode
    (splitParas working2) [] 0

/-- StructureAwareSegmenter._process_section. -/
def processSection (cfg : SegmenterConfig) (content title : Chars)
    (level : Nat) (path : List Chars) (preceding following : Option Chars) :
    List Chunk :=
  let hasTables := reSearch mPipePipe content
  let hasCode := reSearch mCodeFence content
  let ctype := detectContentType content
  if content.length ≤ cfg.max_chunk_size then
    [{ content := String.mk content
       section_path := (path ++ [title]).map String.mk
       section_level := level
       page_number := 0
       content_type := ctype
       preceding_section := preceding.map String.mk
       following_section := following.map String.mk
       has_tables := hasTables
       has_code_blocks := hasCode
       chunk_index := 0 }]
  else
    splitLargeSection cfg content title level path preceding following
      hasTables hasCode

/-- The per-section loop of segment, threading the preceding and
following sibling titles. -/
def sectionsLoop (cfg : SegmenterConfig) :
    Option Chars → List PySection → List Chunk
  | _, [] => []
  | prev, s :: rest =>
    processSection cfg s.content s.title s.level s.path prev
      (rest.head?.map (fun t => t.title)) ++
    sectionsLoop cfg (some s.title) rest

/-- Sequential chunk_index assignment (the chunk_index counter of
segment). -/
def numberChunks (l : List Chunk) : List Chunk :=
  (l.zip (List.range l.length)).map (fun p => { p.1 with chunk_index := p.2 })

/-- StructureAwareSegmenter.segment. -/
def segmentWith (cfg : SegmenterConfig) (markdown : Chars) : List Chunk :=
  numberChunks (sectionsLoop cfg none (splitByHeadings markdown))

/-! ## TableMerger (build/lib doc_to_md/post_processing/table_merger.py) -/

structure TableMergerConfig where
  max_gap_lines : Nat := 5
  strict_gap_check : Bool := false
  min_column_match : Frac := (4, 5)
deriving Repr

/-- A table found by TableMerger._find_tables. -/
structure PyTable where
  start : Nat
  stop : Nat
  text : Chars
  header : Chars
  header_cols : List Chars
  col_count : Nat
  rows : List Chars
deriving DecidableEq, Repr

/-- TableMerger._find_tables over the table pattern. -/
def findTables (md : Chars) : List PyTable :=
  (reFind false mTableFull md).map (fun t =>
    let text := (md.drop t.1).take t.2.1
    let rows := splitOnChar '\n' (pyStrip text)
    let header := rows.headD []
    let headerCols :=
      ((splitOnChar '|' header).map pyStrip).filter (fun c => !c.isEmpty)
    { start := t.1, stop := t.1 + t.2.1, text := text, header := header,
      header_cols := headerCols, col_count := headerCols.length,
      rows := rows.drop 2 })

/-- Gap pattern \*\*[^*]+\*\*\s*\*\*\d+\*\* (page footers). -/
def mGapFooter (cs : Chars) : Option SubMatch :=
  litM ['*', '*'] (fun r1 =>
    greedyCls (fun c => !(c == '*')) 1 (fun _ r2 =>
      litM ['*', '*'] (fun r3 =>
        greedyCls pyWS 0 (fun _ r4 =>
          litM ['*', '*'] (fun r5 =>
            greedyCls isDigitC 1 (fun _ r6 =>
              litM ['*', '*'] (fun r7 =>
                some (cs.length - r7.length, [])) r6) r5) r4) r3) r2) r1) cs

/-- Gap pattern \*\*\d+\*\* (bold page numbers). -/
def mGapBoldNum (cs : Chars) : Option SubMatch :=
  litM ['*', '*'] (fun r1 =>
    greedyCls isDigitC 1 (fun _ r2 =>
      litM ['*', '*'] (fun r3 =>
        some (cs.length - r3.length, [])) r2) r1) cs

/-- Gap pattern ^\d+$ under re.MULTILINE. -/
def mGapPlainNum (cs : Chars) : Option SubMatch :=
  greedyCls isDigitC 1 (fun _ r1 =>
    if atEolM r1 then some (cs.length - r1.length, []) else none) cs

/-- Gap pattern \*\*\s*\*\* (empty bold). -/
def mGapEmptyBold (cs : Chars) : Option SubMatch :=
  litM ['*', '*'] (fun r1 =>
    greedyCls pyWS 0 (fun _ r2 =>
      litM ['*', '*'] (fun r3 =>
        some (cs.length - r3.length, [])) r2) r1) cs

/-- TableMerger._is_valid_gap. -/
def isValidGap (cfg : TableMergerConfig) (gap : Chars) : Bool :=
  let cleaned := reSub false mGapFooter gap
  let cleaned := reSub false mGapBoldNum cleaned
  let cleaned := reSub true mGapPlainNum cleaned
  let cleaned := reSub false mGapEmptyBold cleaned
  if (pyStrip cleaned).isEmpty then true
  else
    let lines := (splitOnChar '\n' cleaned).filter (fun l => !(pyStrip l).isEmpty)
    if lines.length ≤ cfg.max_gap_lines then
      if cfg.strict_gap_check then false else true
    else false

/-- TableMerger._is_continuation_table. -/
def isContinuationTable (cfg : TableMergerConfig) (t1 t2 : PyTable) : Bool :=
  if t1.header_cols == t2.header_cols then true
  else
    let headerText := pyLower (joinSep [' '] t2.header_cols)
    if [String.toList "continued", String.toList "cont.",
        String.toList "(cont)", String.toList "..."].any
        (fun mk => containsSub mk headerText) then true
    else if t1.col_count == t2.col_count then
      let matchCount :=
        ((t1.header_cols.zip t2.header_cols).filter
          (fun p => pyLower p.1 == pyLower p.2)).length
      let ratio : Frac :=
        if 0 < t1.col_count then (matchCount, t1.col_count) else (0, 1)
      fracLe cfg.min_column_match ratio
    else false

/-- TableMerger._should_merge. -/
def shouldMerge (cfg : TableMergerConfig) (t1 t2 : PyTable) (md : Chars) : Bool :=
  t1.col_count == t2.col_count &&
  isValidGap cfg ((md.drop t1.stop).take (t2.start - t1.stop)) &&
  isContinuationTable cfg t1 t2

/-- A merge operation of _identify_merge_candidates. -/
structure MergeOp where
  first_table : PyTable
  second_table : PyTable
  first_end : Nat
  second_start : Nat
  second_end : Nat
deriving DecidableEq, Repr

/-- The candidate loop: after recording a merge of (i, i+1), index i+1
is skipped as the first half of the next pair. -/
def identifyAux (cfg : TableMergerConfig) (md : Chars) :
    List PyTable → Bool → List MergeOp
  | t1 :: t2 :: rest, skipThis =>
    if skipThis then identifyAux cfg md (t2 :: rest) false
    else if shouldMerge cfg t1 t2 md then
      { first_table := t1, second_table := t2, first_end := t1.stop,
        second_start := t2.start, second_end := t2.stop } ::
        identifyAux cfg md (t2 :: rest) true
    else identifyAux cfg md (t2 :: rest) false
  | _, _ => []

def identifyMergeCandidates (cfg : TableMergerConfig) (tables : List PyTable)
    (md : Chars) : List MergeOp :=
  identifyAux cfg md tables false

/-- The rows the second table contributes in _apply_merge: its data rows
when the headers repeat, otherwise its header treated as data followed
by the rows after the separator — which leaves nothing at all when the
second table has no data rows. -/
def rowsToAdd (t1 t2 : PyTable) : List Chars :=
  if t1.header_cols == t2.header_cols then t2.rows
  else
    let rta := splitOnChar '\n' (pyStrip t2.text)
    if 2 < rta.length then rta.headD [] :: rta.drop 2 else []

/-- TableMerger._apply_merge. -/
def applyMerge (md : Chars) (m : MergeOp) : Chars :=
  let mergedRows := joinSep ['\n'] (rowsToAdd m.first_table m.second_table)
  if !mergedRows.isEmpty then
    md.take (m.first_end - 1) ++ '\n' :: mergedRows ++ md.drop m.second_end
  else
    md.take m.second_start ++ md.drop m.second_end

/-- TableMerger.merge_tables. -/
def mergeTables (cfg : TableMergerConfig) (md : Chars) : Chars :=
  let tables := findTables md
  if tables.length < 2 then md
  else
    (identifyMergeCandidates cfg tables md).reverse.foldl applyMerge md

/-! ## MetadataEnricher (post_processing/metadata_enricher.py) -/

/-- MetadataEnricher._enrich_single_chunk: sets chunk_index only. -/
def enrichSingleChunk (c : Chunk) (index : Nat) (totalChunks : Nat) : Chunk :=
  let _ := totalChunks
  { c with chunk_index := index }

/-- MetadataEnricher.enrich_chunks. -/
def enrichChunks (chunks : List Chunk) : List Chunk :=
  (chunks.zip (List.range chunks.length)).map
    (fun p => enrichSingleChunk p.1 p.2 chunks.length)

/-- Total length of a list of paragraphs (the quantity the Python
current_size variable tracks across the accumulation loop). -/
def sumLens (ps : List Chars) : Nat := (ps.map List.length).sum

/-! ## Claim theorems -/

/-- C4: with the outline entry (level 1, Overview, page 5), fix_headings
maps the heading line with level 2 to the same heading at level 1: an
exact normalized-title match replaces the heading level by the outline
level. -/
theorem C4_exact_match_rewrites_level :
    String.mk (fixHeadings [⟨1, "Overview", 5⟩] {}
      (String.toList "## Overview")) = "# Overview" := by decide

/-- C1: contrary to the claim, the prefix-only caption IS accepted as a
fuzzy hit: the SequenceMatcher ratio of the normalized caption against
the outline title is 50/61, which clears the default threshold 4/5, so
_find_toc_level returns the outline level and fix_headings rewrites the
heading from level 3 to level 1 instead of leaving it unchanged. -/
theorem C1_prefix_caption_is_fuzzy_matched :
    seqRatio (normalizeTitle (String.toList "Figure 44. Installing the air shroud"))
      (normalizeTitle (String.toList "Installing the air shroud")) = (50, 61) ∧
    fracLe (4, 5) (50, 61) = true ∧
    findTocLevel (buildTocMap [⟨1, "Installing the air shroud", 44⟩]) (4, 5)
      (String.toList "Figure 44. Installing the air shroud") = some 1 ∧
    String.mk (fixHeadings [⟨1, "Installing the air shroud", 44⟩] {}
      (String.toList "### Figure 44. Installing the air shroud")) =
      "# Figure 44. Installing the air shroud" := by
  refine ⟨by decide, by decide, by decide, by decide⟩

/-- C2: text before the first heading is dropped by segment: on a
document that starts with a preface line, the only chunk is the heading
section, and the preface tokens appear in the input but in no chunk. -/
theorem C2_preface_text_is_dropped :
    (segmentWith {} (String.toList "Before.\n\n# A\n\nBody.")).map
      (fun c => c.content) = ["# A\n\nBody."] ∧
    containsSub (String.toList "Before.")
      (String.toList "Before.\n\n# A\n\nBody.") = true ∧
    containsSub (String.toList "Before.")
      (((segmentWith {} (String.toList "Before.\n\n# A\n\nBody.")).map
        (fun c => c.content.data)).flatten) = false := by
  refine ⟨by decide, by decide, by decide⟩

/-- C3 counterexample: with target 5 and maximum 10, a single
twenty-character blank-line-free paragraph is emitted as one PROSE chunk
of length 20 — an ordinary prose chunk exceeding max_chunk_size, which
the claim rules out. -/
theorem C3_counterexample_prose_chunk_exceeds_max :
    ((segmentWith ⟨5, 10, 0, true, true⟩
      (String.toList "abcdefghijklmnopqrst")).map
        (fun c => (c.content, c.content_type)) =
      [("abcdefghijklmnopqrst", ContentType.prose)]) ∧
    (SegmenterConfig.mk 5 10 0 true true).max_chunk_size <
      ("abcdefghijklmnopqrst").length := by
  refine ⟨by decide, by decide⟩

/-- C7 counterexample: a SegmenterConfig with min_chunk_size 5000 above
max_chunk_size 4000 is constructed without any rejection, carries
exactly those invalid bounds, and the segmenter happily runs with it —
nothing fails at configuration-construction time. -/
theorem C7_counterexample_invalid_bounds_accepted :
    (SegmenterConfig.mk 2000 4000 5000 true true).min_chunk_size = 5000 ∧
    (SegmenterConfig.mk 2000 4000 5000 true true).max_chunk_size = 4000 ∧
    (SegmenterConfig.mk 2000 4000 5000 true true).max_chunk_size <
      (SegmenterConfig.mk 2000 4000 5000 true true).min_chunk_size ∧
    (segmentWith (SegmenterConfig.mk 2000 4000 5000 true true)
      (String.toList "x")).length = 1 := by
  refine ⟨rfl, rfl, by decide, by decide⟩

/-- C7 amended: SegmenterConfig construction performs no validation:
for every choice of bounds with min_chunk_size above max_chunk_size,
construction succeeds and the resulting value holds exactly the given
fields. -/
theorem C7_construction_never_validates
    (t mx mn : Nat) (pt pc : Bool) (h : mx < mn) :
    ∃ c : SegmenterConfig,
      c = SegmenterConfig.mk t mx mn pt pc ∧
      c.min_chunk_size = mn ∧ c.max_chunk_size = mx ∧
      c.max_chunk_size < c.min_chunk_size := by
  exact ⟨SegmenterConfig.mk t mx mn pt pc, rfl, rfl, rfl, h⟩

/-- C7 witness. -/
theorem C7_construction_never_validates_witness :
    ∃ c : SegmenterConfig,
      c = SegmenterConfig.mk 2000 4000 5000 true true ∧
      c.min_chunk_size = 5000 ∧ c.max_chunk_size = 4000 ∧
      c.max_chunk_size < c.min_chunk_size :=
  C7_construction_never_validates 2000 4000 5000 true true (by decide)

/-- C8 counterexample: clean is not idempotent under the default
configuration: a second run changes the output again. -/
theorem C8_counterexample_not_idempotent :
    clean (clean (String.toList "- - - x\n")) ≠
      clean (String.toList "- - - x\n") := by decide

/-- C8 amended: the duplicate-bullet substitution removes one leading
dash layer per run, so the document with three dashes stabilizes only
after two runs of clean. -/
theorem C8_bullet_dedup_one_layer_per_run :
    String.mk (clean (String.toList "- - - x\n")) = "- - x\n" ∧
    String.mk (clean (String.toList "- - x\n")) = "- x\n" ∧
    String.mk (clean (String.toList "- x\n")) = "- x\n" := by
  refine ⟨by decide, by decide, by decide⟩

/-- C6 counterexample: a line that is only the five-digit number 12345
is not removed by clean: the orphan-number pattern only accepts one to
four digits. -/
theorem C6_counterexample_five_digit_number_kept :
    String.mk (clean (String.toList "12345\n")) = "12345\n" ∧
    pyIsDigitStr (String.toList "12345") = true := by
  refine ⟨by decide, by decide⟩

/-- C5 counterexample: two adjacent two-column tables whose headers
differ only in case (a continuation by the 0.8 column-match ratio),
where the second table has zero data rows: the merge removes the second
table without appending its header row as data, contrary to the claim. -/
theorem C5_counterexample_zero_row_header_dropped :
    String.mk (mergeTables {} (String.toList
      "| A | B |\n| --- | --- |\n| 1 | 2 |\n\n| a | b |\n| --- | --- |\n")) =
      "| A | B |\n| --- | --- |\n| 1 | 2 |\n\n" ∧
    (identifyMergeCandidates {}
      (findTables (String.toList
        "| A | B |\n| --- | --- |\n| 1 | 2 |\n\n| a | b |\n| --- | --- |\n"))
      (String.toList
        "| A | B |\n| --- | --- |\n| 1 | 2 |\n\n| a | b |\n| --- | --- |\n")).length
      = 1 ∧
    containsSub (String.toList "| a | b |")
      (mergeTables {} (String.toList
        "| A | B |\n| --- | --- |\n| 1 | 2 |\n\n| a | b |\n| --- | --- |\n"))
      = false := by
  refine ⟨by decide, by decide, by decide⟩

/-! Helper lemmas for the dictionary model (C9). -/

theorem dictLookup_nil (t : Chars) : dictLookup [] t = none := rfl

theorem dictLookup_cons (x : Chars × Nat) (l : List (Chars × Nat)) (t : Chars) :
    dictLookup (x :: l) t =
      if x.1 == t then some x.2 else dictLookup l t := by
  unfold dictLookup
  cases hx : x.1 == t <;> simp [List.find?, hx]

theorem find_app_elim {p : α → Bool} (l1 l2 : List α) :
    (l1 ++ l2).find? p =
      match l1.find? p with
      | some x => some x
      | none => l2.find? p := by
  induction l1 with
  | nil => simp
  | cons a l ih => cases hp : p a <;> simp [List.find?, hp, ih]

theorem dictLookup_append (l1 l2 : List (Chars × Nat)) (t : Chars) :
    dictLookup (l1 ++ l2) t =
      match dictLookup l1 t with
      | some v => some v
      | none => dictLookup l2 t := by
  unfold dictLookup
  rw [find_app_elim]
  rcases h : l1.find? (fun p => p.1 == t) with _ | x <;> simp [h]

theorem dictLookup_isSome_of_any (m : List (Chars × Nat)) (k : Chars)
    (h : m.any (fun p => p.1 == k) = true) :
    ∃ w, dictLookup m k = some w := by
  induction m with
  | nil => simp at h
  | cons a m2 ih =>
    rw [dictLookup_cons]
    cases hak : a.1 == k with
    | true => exact ⟨a.2, by simp⟩
    | false =>
      rw [List.any_cons, hak, Bool.false_or] at h
      simp only [hak, Bool.false_eq_true, if_neg, not_false_iff]
      exact ih h

theorem dictLookup_none_of_not_any (m : List (Chars × Nat)) (k : Chars)
    (h : m.any (fun p => p.1 == k) = false) :
    dictLookup m k = none := by
  induction m with
  | nil => rfl
  | cons a m2 ih =>
    cases hak : a.1 == k with
    | true => rw [List.any_cons, hak] at h; simp at h
    | false =>
      rw [List.any_cons, hak, Bool.false_or] at h
      rw [dictLookup_cons, hak]
      simp [ih h]

theorem dictLookup_map_upd (m : List (Chars × Nat)) (k : Chars) (v : Nat)
    (t : Chars) :
    dictLookup (m.map (fun p => if p.1 == k then (p.1, v) else p)) t =
      if t = k then (dictLookup m k).map (fun _ => v)
      else dictLookup m t := by
  induction m with
  | nil => by_cases htk : t = k <;> simp [dictLookup, htk]
  | cons a m2 ih =>
    rw [List.map_cons, dictLookup_cons, dictLookup_cons]
    by_cases hak : a.1 = k
    · have hfa : (if a.1 == k then (a.1, v) else a) = (a.1, v) := by simp [hak]
      rw [hfa]
      by_cases htk : t = k
      · subst htk
        simp [hak, ih, dictLookup_cons]
      · have hat : (a.1 == t) = false := by
          simp only [beq_eq_false_iff_ne, ne_eq, hak]
          exact fun h => htk h.symm
        simp only [hat, Bool.false_eq_true, if_neg, not_false_iff]
        rw [ih]
        simp only [htk, if_neg, not_false_iff]
        rw [dictLookup_cons]
        simp [hat]
    · have hfa : (if a.1 == k then (a.1, v) else a) = a := by simp [hak]
      rw [hfa, ih]
      by_cases htk : t = k
      · subst htk
        have hat : (a.1 == t) = false := by
          simp only [beq_eq_false_iff_ne, ne_eq]
          exact hak
        simp [hat, dictLookup_cons]
      · simp only [htk, if_neg, not_false_iff]
        rw [dictLookup_cons]

theorem dictLookup_dictInsert (m : List (Chars × Nat)) (k : Chars) (v : Nat)
    (t : Chars) :
    dictLookup (dictInsert m k v) t =
      if t = k then some v else dictLookup m t := by
  unfold dictInsert
  by_cases hany : m.any (fun p => p.1 == k) = true
  · simp only [hany, if_pos]
    rw [dictLookup_map_upd]
    by_cases htk : t = k
    · subst htk
      obtain ⟨w, hw⟩ := dictLookup_isSome_of_any m t hany
      simp [hw]
    · simp [htk]
  · have hany2 : m.any (fun p => p.1 == k) = false :=
      Bool.eq_false_iff.mpr hany
    simp only [hany2, Bool.false_eq_true, if_neg, not_false_iff]
    rw [dictLookup_append]
    have hnone := dictLookup_none_of_not_any m k hany2
    by_cases htk : t = k
    · subst htk
      simp [hnone, dictLookup_cons]
    · have hkt : (k == t) = false := by
        simp only [beq_eq_false_iff_ne, ne_eq]
        exact fun h => htk h.symm
      rcases h : dictLookup m t with _ | w <;>
        simp [h, dictLookup_cons, hkt, dictLookup_nil, htk]

/-- The generalized fold lemma behind C9: folding dictInsert over the
outline, the lookup of t is the level of the last outline entry whose
normalized title is t, falling back to the accumulator. -/
theorem buildTocMap_fold_lookup (toc : List TOCItem)
    (m : List (Chars × Nat)) (t : Chars) :
    dictLookup
      (toc.foldl (fun acc item =>
        dictInsert acc (normalizeTitle item.title.data) item.level) m) t =
      match toc.reverse.find? (fun i => normalizeTitle i.title.data == t) with
      | some i => some i.level
      | none => dictLookup m t := by
  induction toc generalizing m with
  | nil => simp
  | cons i tl ih =>
    simp only [List.foldl_cons, List.reverse_cons]
    rw [ih, find_app_elim]
    rcases h : tl.reverse.find? (fun j => normalizeTitle j.title.data == t)
      with _ | j
    · by_cases hp : normalizeTitle i.title.data = t
      · simp [List.find?, hp, dictLookup_dictInsert, h]
      · have hb : (normalizeTitle i.title.data == t) = false := by simp [hp]
        simp only [List.find?, hb]
        rw [dictLookup_dictInsert]
        have hne : ¬ t = normalizeTitle i.title.data := fun hh => hp hh.symm
        simp [hne, h]
    · simp [h]

/-- C9: when two outline entries normalize to the same title, the
lookup map built by _build_toc_map holds the level of the LAST such
entry in the sequence: the dictionary is filled by insertion and later
entries overwrite earlier ones. -/
theorem C9_toc_map_last_entry_wins (toc : List TOCItem) (t : Chars) :
    dictLookup (buildTocMap toc) t =
      (toc.reverse.find? (fun i => normalizeTitle i.title.data == t)).map
        (fun i => i.level) := by
  unfold buildTocMap
  rw [buildTocMap_fold_lookup]
  rcases h : toc.reverse.find? (fun i => normalizeTitle i.title.data == t)
    with _ | j <;> simp [h, dictLookup]

/-- C10: enrich_chunks keeps the length and order of the chunk list and
rewrites each chunk to the same chunk with only chunk_index replaced by
its position. -/
theorem C10_enrich_sets_only_chunk_index (chunks : List Chunk) :
    (enrichChunks chunks).length = chunks.length ∧
    ∀ i (h1 : i < (enrichChunks chunks).length) (h2 : i < chunks.length),
      (enrichChunks chunks).get ⟨i, h1⟩ =
        { chunks.get ⟨i, h2⟩ with chunk_index := i } := by
  constructor
  · simp [enrichChunks]
  · intro i h1 h2
    simp [enrichChunks, enrichSingleChunk]

/-- C10 witness. -/
theorem C10_enrich_witness :
    (enrichChunks
      [{ content := "a", section_path := [], section_level := 0,
         page_number := 0, content_type := ContentType.prose,
         chunk_index := 7 },
       { content := "b", section_path := [], section_level := 0,
         page_number := 0, content_type := ContentType.prose,
         chunk_index := 9 }]).get ⟨1, by decide⟩ =
      { content := "b", section_path := [], section_level := 0,
        page_number := 0, content_type := ContentType.prose,
        chunk_index := 1 } := by
  have h := (C10_enrich_sets_only_chunk_index
    [{ content := "a", section_path := [], section_level := 0,
       page_number := 0, content_type := ContentType.prose,
       chunk_index := 7 },
     { content := "b", section_path := [], section_level := 0,
       page_number := 0, content_type := ContentType.prose,
       chunk_index := 9 }]).2 1 (by decide) (by decide)
  simpa using h

/-! Helper lemmas for the C3 accumulation invariant. -/

theorem sumLens_nil : sumLens [] = 0 := rfl

theorem sumLens_cons (p : Chars) (ps : List Chars) :
    sumLens (p :: ps) = p.length + sumLens ps := by
  simp [sumLens]

theorem sumLens_reverse (ps : List Chars) :
    sumLens ps.reverse = sumLens ps := by
  simp [sumLens, List.sum_reverse]

/-- The invariant of the paragraph-accumulation loop: the running size
is the total length of the current chunk, and the current chunk is
either within the target or a single paragraph; every emitted chunk is
either a protected element restored, or the restored join of a
paragraph group that is a singleton or fits the target. -/
theorem accumLoop_inv (cfg : SegmenterConfig) (prot : Protected)
    (title : Chars) (level : Nat) (path : List Chars)
    (preceding following : Option Chars) (hT hC : Bool) :
    ∀ (paras current : List Chars),
      (sumLens current ≤ cfg.target_chunk_size ∨ ∃ p, current = [p]) →
      ∀ ck ∈ accumLoop cfg prot title level path preceding following hT hC
          paras current (sumLens current),
        (∃ para : Chars, prot.any (fun p => p.1 == pyStrip para) = true ∧
          ck.content = String.mk (restoreProtected prot para)) ∨
        (∃ ps : List Chars, ps ≠ [] ∧
          ck.content =
            String.mk (restoreProtected prot (joinSep ['\n', '\n'] ps)) ∧
          (ps.length = 1 ∨ sumLens ps ≤ cfg.target_chunk_size)) := by
  intro paras
  induction paras with
  | nil =>
    intro current hinv ck hck
    rw [accumLoop] at hck
    by_cases hcur : current.isEmpty
    · simp [hcur] at hck
    · simp only [hcur, Bool.false_eq_true, if_neg, not_false_iff,
        List.mem_singleton] at hck
      subst hck
      right
      refine ⟨current.reverse, ?_, rfl, ?_⟩
      · simpa [List.isEmpty_iff] using hcur
      · rw [sumLens_reverse]
        rcases hinv with h | ⟨p, hp⟩
        · right; exact h
        · left; simp [hp]
  | cons para rest ih =>
    intro current hinv ck hck
    rw [accumLoop] at hck
    by_cases hprot : prot.any (fun p => p.1 == pyStrip para) = true
    · simp only [hprot, if_pos, List.mem_append] at hck
      rcases hck with (hck | hck) | hck
      · by_cases hcur : current.isEmpty
        · simp [hcur] at hck
        · simp only [hcur, Bool.false_eq_true, if_neg, not_false_iff,
            List.mem_singleton] at hck
          subst hck
          right
          refine ⟨current.reverse, ?_, rfl, ?_⟩
          · simpa [List.isEmpty_iff] using hcur
          · rw [sumLens_reverse]
            rcases hinv with h | ⟨p, hp⟩
            · right; exact h
            · left; simp [hp]
      · simp only [List.mem_singleton] at hck
        subst hck
        left
        exact ⟨para, hprot, rfl⟩
      · have h0 : (0 : Nat) = sumLens [] := rfl
        rw [show (0 : Nat) = sumLens [] from rfl] at hck
        exact ih [] (Or.inl (by simp [sumLens_nil])) ck hck
    · have hprot2 : prot.any (fun p => p.1 == pyStrip para) = false :=
        Bool.eq_false_iff.mpr hprot
      simp only [hprot2, Bool.false_eq_true, if_neg, not_false_iff] at hck
      by_cases hcond : cfg.target_chunk_size < sumLens current + para.length ∧
          !current.isEmpty
      · rw [if_pos hcond] at hck
        simp only [List.mem_cons] at hck
        rcases hck with hck | hck
        · subst hck
          right
          refine ⟨current.reverse, ?_, rfl, ?_⟩
          · have := hcond.2
            simp only [Bool.not_eq_true'] at this
            simpa [List.isEmpty_iff] using this
          · rw [sumLens_reverse]
            rcases hinv with h | ⟨p, hp⟩
            · right; exact h
            · left; simp [hp]
        · rw [show para.length = sumLens [para] by simp [sumLens]] at hck
          exact ih [para] (Or.inr ⟨para, rfl⟩) ck hck
      · rw [if_neg hcond] at hck
        rw [show sumLens current + para.length = sumLens (para :: current) by
          rw [sumLens_cons]; omega] at hck
        refine ih (para :: current) ?_ ck hck
        rcases Decidable.not_and_iff_or_not.mp hcond with h | h
        · left
          rw [sumLens_cons]
          omega
        · have : current = [] := by
            simp only [Bool.not_eq_true, Bool.not_eq_false] at h
            simpa [List.isEmpty_iff] using h
          subst this
          exact Or.inr ⟨para, rfl⟩

/-- C3 amended: a chunk emitted by the oversize-section splitter is
either a protected atomic element (table or fenced code block) restored
whole, or the restored join of a group of paragraphs that is a single
paragraph (emitted regardless of its size, so prose CAN exceed
max_chunk_size) or whose total paragraph length is within
target_chunk_size; only the latter multi-paragraph bound is enforced,
and only on the pre-restoration sizes. -/
theorem C3_split_large_chunk_shape (cfg : SegmenterConfig) (prot : Protected)
    (title : Chars) (level : Nat) (path : List Chars)
    (preceding following : Option Chars) (hT hC : Bool) (paras : List Chars)
    (ck : Chunk)
    (hck : ck ∈ accumLoop cfg prot title level path preceding following hT hC
      paras [] 0) :
    (∃ para : Chars, prot.any (fun p => p.1 == pyStrip para) = true ∧
      ck.content = String.mk (restoreProtected prot para)) ∨
    (∃ ps : List Chars, ps ≠ [] ∧
      ck.content = String.mk (restoreProtected prot (joinSep ['\n', '\n'] ps)) ∧
      (ps.length = 1 ∨ sumLens ps ≤ cfg.target_chunk_size)) := by
  have h0 : (0 : Nat) = sumLens [] := rfl
  rw [h0] at hck
  exact accumLoop_inv cfg prot title level path preceding following hT hC
    paras [] (Or.inl (by simp [sumLens_nil])) ck hck

/-- C3 witness: the oversized single paragraph from the counterexample
run lands in the singleton branch of the amended claim. -/
theorem C3_split_large_chunk_shape_witness :
    (∃ para : Chars,
      ([] : Protected).any (fun p => p.1 == pyStrip para) = true ∧
      (Chunk.mk "abcdefghijklmnopqrst" ["Document"] 0 0 ContentType.prose
        none none false false 0).content =
        String.mk (restoreProtected [] para)) ∨
    (∃ ps : List Chars, ps ≠ [] ∧
      (Chunk.mk "abcdefghijklmnopqrst" ["Document"] 0 0 ContentType.prose
        none none false false 0).content =
        String.mk (restoreProtected [] (joinSep ['\n', '\n'] ps)) ∧
      (ps.length = 1 ∨
        sumLens ps ≤ (SegmenterConfig.mk 5 10 0 true true).target_chunk_size)) := by
  have h := C3_split_large_chunk_shape (SegmenterConfig.mk 5 10 0 true true) []
    (String.toList "Document") 0 [] none none false false
    [String.toList "abcdefghijklmnopqrst"]
    (Chunk.mk "abcdefghijklmnopqrst" ["Document"] 0 0 ContentType.prose
      none none false false 0)
    (by decide)
  exact h

/-- C5 amended: for a document holding exactly one adjacent
merge-candidate pair, merge_tables rewrites the document by splicing in
rows_to_add after the first table (deleting the gap) when it is
nonempty, and deletes the second table outright (keeping the gap) when
it is empty; rows_to_add is the data rows of the second table when the
headers repeat, and otherwise its header-as-data followed by the rows
after the separator when it has at least one data row, but nothing at
all when it has none. -/
theorem C5_apply_merge_branches (cfg : TableMergerConfig) (md : Chars)
    (t1 t2 : PyTable)
    (hf : findTables md = [t1, t2])
    (hs : shouldMerge cfg t1 t2 md = true) :
    (mergeTables cfg md =
      if !(joinSep ['\n'] (rowsToAdd t1 t2)).isEmpty then
        md.take (t1.stop - 1) ++
          '\n' :: (joinSep ['\n'] (rowsToAdd t1 t2) ++ md.drop t2.stop)
      else md.take t2.start ++ md.drop t2.stop) ∧
    (t1.header_cols = t2.header_cols → rowsToAdd t1 t2 = t2.rows) ∧
    (t1.header_cols ≠ t2.header_cols →
      ((splitOnChar '\n' (pyStrip t2.text)).length ≤ 2 →
        rowsToAdd t1 t2 = []) ∧
      (2 < (splitOnChar '\n' (pyStrip t2.text)).length →
        rowsToAdd t1 t2 =
          (splitOnChar '\n' (pyStrip t2.text)).headD [] ::
            (splitOnChar '\n' (pyStrip t2.text)).drop 2)) := by
  refine ⟨?_, ?_, ?_⟩
  · unfold mergeTables
    rw [hf]
    simp only [List.length_cons, List.length_nil]
    rw [if_neg (by omega)]
    unfold identifyMergeCandidates identifyAux
    rw [if_neg (by simp)]
    rw [if_pos hs]
    unfold identifyAux
    simp only [if_pos, List.reverse_cons, List.reverse_nil, List.nil_append,
      List.foldl_cons, List.foldl_nil]
    unfold applyMerge
    simp
  · intro h
    unfold rowsToAdd
    rw [if_pos (by simp [h])]
  · intro hne
    have hb : (t1.header_cols == t2.header_cols) = false := by
      simp only [beq_eq_false_iff_ne, ne_eq]
      exact hne
    constructor
    · intro hlen
      unfold rowsToAdd
      rw [if_neg (by simp [hb])]
      simp only
      rw [if_neg (by omega)]
    · intro hlen
      unfold rowsToAdd
      rw [if_neg (by simp [hb])]
      simp only
      rw [if_pos hlen]

/-- C5 witness: the counterexample pair instantiates the empty branch:
the case-differing zero-data-row table is deleted without its header
being appended. -/
theorem C5_apply_merge_branches_witness :
    mergeTables {} (String.toList
      "| A | B |\n| --- | --- |\n| 1 | 2 |\n\n| a | b |\n| --- | --- |\n") =
      String.toList "| A | B |\n| --- | --- |\n| 1 | 2 |\n\n" := by
  have h := C5_apply_merge_branches {} (String.toList
      "| A | B |\n| --- | --- |\n| 1 | 2 |\n\n| a | b |\n| --- | --- |\n")
    (PyTable.mk 0 34
      (String.toList "| A | B |\n| --- | --- |\n| 1 | 2 |\n")
      (String.toList "| A | B |") [['A'], ['B']] 2
      [String.toList "| 1 | 2 |"])
    (PyTable.mk 35 59
      (String.toList "| a | b |\n| --- | --- |\n")
      (String.toList "| a | b |") [['a'], ['b']] 2 [])
    (by decide) (by decide)
  rw [h.1]
  decide

/-! Helper lemmas for C6: a document that is a single short digit line. -/

theorem digit_not_ws {c : Char} (h : isDigitC c = true) : pyWS c = false := by
  simp only [isDigitC, Char.isDigit, Bool.and_eq_true, decide_eq_true_eq] at h
  obtain ⟨hlo, hhi⟩ := h
  simp only [pyWS, Bool.or_eq_false_iff, decide_eq_false_iff_not]
  refine ⟨⟨⟨⟨⟨?_, ?_⟩, ?_⟩, ?_⟩, ?_⟩, ?_⟩ <;>
    (intro he; subst he; exact absurd hlo (by decide))

theorem digit_ne_nl {c : Char} (h : isDigitC c = true) : (c == '\n') = false := by
  simp only [beq_eq_false_iff_ne, ne_eq]
  intro he
  subst he
  simp [isDigitC, Char.isDigit] at h

theorem star_ne_digit {c : Char} (h : isDigitC c = true) : ('*' == c) = false := by
  simp only [beq_eq_false_iff_ne, ne_eq]
  intro he
  rw [← he] at h
  simp [isDigitC, Char.isDigit] at h

theorem digit_ne_cr {c : Char} (h : isDigitC c = true) : c ≠ '\r' := by
  intro he
  subst he
  simp [isDigitC, Char.isDigit] at h

theorem replaceAllAux_head_absent (o : Char) (old new : Chars) :
    ∀ (fuel : Nat) (cs : Chars), (∀ c ∈ cs, c ≠ o) →
      replaceAllAux (o :: old) new fuel cs = cs := by
  intro fuel
  induction fuel with
  | zero => intro cs _; rfl
  | succ fuel ih =>
    intro cs h
    cases cs with
    | nil => rfl
    | cons c cs2 =>
      have hco : (o == c) = false := by
        simp only [beq_eq_false_iff_ne, ne_eq]
        exact fun he => (h c (by simp)) he.symm
      rw [replaceAllAux]
      rw [if_neg (by simp [List.isPrefixOf, hco])]
      rw [ih cs2 (fun d hd => h d (by simp [hd]))]

theorem replaceAll_head_absent (o : Char) (old new cs : Chars)
    (h : ∀ c ∈ cs, c ≠ o) : replaceAll (o :: old) new cs = cs :=
  replaceAllAux_head_absent o old new (cs.length + 1) cs h

/-- One-step unfolding of the scanner at a successor fuel. -/
theorem subScanP_succ (m : Bool → Chars → Option SubMatch)
    (fuel : Nat) (atLS : Bool) (cs : Chars) :
    subScanP m (fuel + 1) atLS cs =
      match m atLS cs with
      | some (n, repl) =>
        if n = 0 then
          match cs with
          | [] => repl
          | c :: rest => repl ++ c :: subScanP m fuel (c == '\n') rest
        else
          repl ++ subScanP m fuel (cs.get? (n - 1) == some '\n') (cs.drop n)
      | none =>
        match cs with
        | [] => []
        | c :: rest => c :: subScanP m fuel (c == '\n') rest := rfl

/-- Scanner step when the matcher fails at a cons cell. -/
theorem subScanP_step_none (m : Bool → Chars → Option SubMatch)
    (fuel : Nat) (atLS : Bool) (c : Char) (rest : Chars)
    (h : m atLS (c :: rest) = none) :
    subScanP m (fuel + 1) atLS (c :: rest) =
      c :: subScanP m fuel (c == '\n') rest := by
  rw [subScanP_succ, h]

/-- Scanner step when the matcher consumes n ≥ 1 characters. -/
theorem subScanP_step_some (m : Bool → Chars → Option SubMatch)
    (fuel : Nat) (atLS : Bool) (cs : Chars) (n : Nat) (repl : Chars)
    (h : m atLS cs = some (n, repl)) (hn : n ≠ 0) :
    subScanP m (fuel + 1) atLS cs =
      repl ++ subScanP m fuel (cs.get? (n - 1) == some '\n') (cs.drop n) := by
  rw [subScanP_succ]
  simp only [h]
  rw [if_neg hn]

/-- One-step unfolding of greedy backtracking. -/
theorem backOff_unfold (lo : Nat) (k : Chars → Chars → Option α)
    (rev rest : Chars) :
    backOff lo k rev rest =
      match (if rev.length ≥ lo then k rev rest else none) with
      | some a => some a
      | none =>
        match rev with
        | [] => none
        | c :: rs => backOff lo k rs (c :: rest) := by
  cases rev with
  | nil =>
    show (if ([] : Chars).length ≥ lo then k [] rest else none) = _
    cases h : (if ([] : Chars).length ≥ lo then k [] rest else none) <;> simp [h]
  | cons c rs => rfl

/-- The matcher of an anchored pattern is only consulted at line starts;
a scan that begins past position 0 of a text whose only newline is the
final one therefore changes nothing. -/
theorem subScanP_nil (m : Bool → Chars → Option SubMatch) :
    ∀ (fuel : Nat) (b : Bool), m b [] = none → subScanP m fuel b [] = [] := by
  intro fuel b h
  cases fuel with
  | zero => rfl
  | succ fuel => rw [subScanP_succ, h]

theorem subScanP_skip_tail (m : Bool → Chars → Option SubMatch)
    (hskip : ∀ s, m false s = none) (hnil : m true [] = none) :
    ∀ (ds : Chars) (fuel : Nat), (∀ c ∈ ds, (c == '\n') = false) →
      subScanP m fuel false (ds ++ ['\n']) = ds ++ ['\n'] := by
  intro ds
  induction ds with
  | nil =>
    intro fuel _
    cases fuel with
    | zero => rfl
    | succ fuel =>
      rw [subScanP_succ, hskip]
      simp only [List.nil_append]
      rw [show (('\n' : Char) == '\n') = true from by decide]
      rw [subScanP_nil m fuel true hnil]
  | cons d ds2 ih =>
    intro fuel h
    cases fuel with
    | zero => rfl
    | succ fuel =>
      rw [subScanP_succ, hskip]
      simp only [List.cons_append]
      rw [h d (by simp)]
      rw [ih fuel (fun c hc => h c (by simp [hc]))]

/-- An anchored re.sub whose matcher fails at position 0 of a digit line
leaves the line unchanged. -/
theorem reSub_true_digitline_id (m0 : Chars → Option SubMatch) (ds : Chars)
    (hds : ∀ c ∈ ds, isDigitC c = true)
    (h0 : m0 (ds ++ ['\n']) = none) (hnil : m0 [] = none) :
    reSub true m0 (ds ++ ['\n']) = ds ++ ['\n'] := by
  unfold reSub reSubP
  have hskip : ∀ s, (fun atLS s =>
      if true && !atLS then none else m0 s) false s = none := by
    intro s; rfl
  cases ds with
  | nil =>
    have hlen : ([] : Chars) ++ ['\n'] = ['\n'] := rfl
    rw [hlen] at h0 ⊢
    rw [show (['\n'] : Chars).length + 1 = 1 + 1 from rfl]
    rw [subScanP_step_none _ _ _ _ _ (by exact h0)]
    rw [show (('\n' : Char) == '\n') = true from by decide]
    rw [subScanP_nil _ _ true hnil]
  | cons d ds2 =>
    rw [show ((d :: ds2) ++ ['\n']).length + 1 = (ds2 ++ ['\n']).length + 1 + 1
      from by simp]
    rw [List.cons_append]
    rw [subScanP_step_none _ _ _ _ _ (by exact h0)]
    rw [digit_ne_nl (hds d (by simp))]
    rw [subScanP_skip_tail _ hskip hnil ds2 _
      (fun c hc => digit_ne_nl (hds c (by simp [hc])))]

/-- The three footer matchers all fail on a line of digits: each needs a
leading pair of stars after optional whitespace. -/
theorem mFooterA_none_digit (a : Char) (rest : Chars)
    (h : isDigitC a = true) : mFooterA (a :: rest) = none := by
  unfold mFooterA greedyCls
  rw [show spanB pyWS (a :: rest) = ([], a :: rest) from by
    simp [spanB, digit_not_ws h]]
  simp only [List.reverse_nil]
  rw [backOff]
  simp [litM, List.isPrefixOf, star_ne_digit h]

theorem mFooterB_none_digit (a : Char) (rest : Chars)
    (h : isDigitC a = true) : mFooterB (a :: rest) = none := by
  unfold mFooterB greedyCls
  rw [show spanB pyWS (a :: rest) = ([], a :: rest) from by
    simp [spanB, digit_not_ws h]]
  simp only [List.reverse_nil]
  rw [backOff]
  simp [litM, List.isPrefixOf, star_ne_digit h]

theorem mFooterNum_none_digit (a : Char) (rest : Chars)
    (h : isDigitC a = true) : mFooterNum (a :: rest) = none := by
  unfold mFooterNum greedyCls
  rw [show spanB pyWS (a :: rest) = ([], a :: rest) from by
    simp [spanB, digit_not_ws h]]
  simp only [List.reverse_nil]
  rw [backOff]
  simp [litM, List.isPrefixOf, star_ne_digit h]

/-- The function _remove_page_footers is the identity on a short digit line. -/
theorem removePageFooters_digitline (ds : Chars)
    (hds : ∀ c ∈ ds, isDigitC c = true) :
    removePageFooters (ds ++ ['\n']) = ds ++ ['\n'] := by
  have hnr : ∀ c ∈ ds ++ ['\n'], c ≠ '\r' := by
    intro c hc
    rcases List.mem_append.mp hc with hc | hc
    · exact digit_ne_cr (hds c hc)
    · simp only [List.mem_singleton] at hc
      subst hc
      decide
  show reSub true mFooterNum (reSub true mFooterB (reSub true mFooterA
    (replaceAll ['\r'] ['\n']
      (replaceAll ['\r', '\n'] ['\n'] (ds ++ ['\n']))))) = ds ++ ['\n']
  rw [replaceAll_head_absent _ _ _ _ hnr]
  rw [replaceAll_head_absent _ _ _ _ hnr]
  have hA : mFooterA (ds ++ ['\n']) = none := by
    cases ds with
    | nil => decide
    | cons a ds2 => exact mFooterA_none_digit a _ (hds a (by simp))
  have hB : mFooterB (ds ++ ['\n']) = none := by
    cases ds with
    | nil => decide
    | cons a ds2 => exact mFooterB_none_digit a _ (hds a (by simp))
  have hN : mFooterNum (ds ++ ['\n']) = none := by
    cases ds with
    | nil => decide
    | cons a ds2 => exact mFooterNum_none_digit a _ (hds a (by simp))
  rw [reSub_true_digitline_id mFooterA ds hds hA (by decide)]
  rw [reSub_true_digitline_id mFooterB ds hds hB (by decide)]
  rw [reSub_true_digitline_id mFooterNum ds hds hN (by decide)]

theorem spanUpTo_digits :
    ∀ (ds : Chars) (n : Nat), ds.length ≤ n →
      (∀ c ∈ ds, isDigitC c = true) →
      spanUpTo isDigitC n (ds ++ ['\n']) = (ds, ['\n']) := by
  intro ds
  induction ds with
  | nil =>
    intro n _ _
    cases n with
    | zero => rfl
    | succ n => simp [spanUpTo, show isDigitC '\n' = false from by decide]
  | cons d ds2 ih =>
    intro n hn hd
    cases n with
    | zero => simp at hn
    | succ n =>
      rw [List.cons_append, spanUpTo]
      rw [if_pos (by simpa using hd d (by simp))]
      rw [ih n (by simpa using hn) (fun c hc => hd c (by simp [hc]))]

/-- The orphan-number pattern matches the whole short digit line,
newline included. -/
theorem mOrphanNum_digitline (ds : Chars) (h1 : ds ≠ [])
    (h2 : ds.length ≤ 4) (h3 : ∀ c ∈ ds, isDigitC c = true) :
    mOrphanNum (ds ++ ['\n']) = some (ds.length + 1, []) := by
  unfold mOrphanNum greedyClsUpTo
  rw [spanUpTo_digits ds 4 h2 h3]
  rw [backOff_unfold]
  rw [if_pos (by
    simp only [List.length_reverse]
    exact Nat.one_le_iff_ne_zero.mpr (fun hz => h1 (List.length_eq_zero.mp hz)))]
  simp only [greedyCls]
  rw [show spanB pyWS ['\n'] = (['\n'], []) from by decide]
  simp only [List.reverse_cons, List.reverse_nil, List.nil_append]
  rw [backOff_unfold]
  simp only [List.length_cons, List.length_nil, ge_iff_le, Nat.le_add_left,
    if_pos, atEolM]
  simp

/-- The function _remove_orphan_page_numbers empties the short digit line. -/
theorem removeOrphanPageNumbers_digitline (ds : Chars) (h1 : ds ≠ [])
    (h2 : ds.length ≤ 4) (h3 : ∀ c ∈ ds, isDigitC c = true) :
    removeOrphanPageNumbers (ds ++ ['\n']) = [] := by
  show reSub true mOrphanNum (ds ++ ['\n']) = []
  unfold reSub reSubP
  rw [show (ds ++ ['\n']).length + 1 = ds.length + 1 + 1 from by simp]
  rw [subScanP_step_some _ _ _ _ _ _
    (by exact mOrphanNum_digitline ds h1 h2 h3) (by omega)]
  have hdrop : (ds ++ ['\n']).drop (ds.length + 1) = [] := by
    have hl : ds.length + 1 = (ds ++ ['\n']).length := by simp
    rw [hl]
    exact List.drop_length _
  rw [hdrop]
  rw [subScanP_nil _ _ _ (by
    cases hq : (((ds ++ ['\n']).get? (ds.length + 1 - 1) == some '\n') : Bool) <;>
      simp [hq, show mOrphanNum [] = none from by decide])]
  simp

/-- C6 amended: under the default configuration, clean maps a document
that is a single plain number line of one to four digits to the empty
document (a lone newline): the line and its newline are consumed and
only the final newline normalization remains. -/
theorem C6_short_number_line_removed (ds : Chars) (h1 : ds ≠ [])
    (h2 : ds.length ≤ 4) (h3 : ∀ c ∈ ds, isDigitC c = true) :
    clean (ds ++ ['\n']) = ['\n'] := by
  unfold clean cleanWith
  simp only [eq_self_iff_true, if_true]
  rw [removePageFooters_digitline ds h3]
  rw [removeOrphanPageNumbers_digitline ds h1 h2 h3]
  decide

/-- C6 witness: the two-digit line 23 is removed entirely. -/
theorem C6_short_number_line_removed_witness :
    clean (String.toList "23\n") = ['\n'] := by
  have h := C6_short_number_line_removed ['2', '3'] (by decide) (by decide)
    (by decide)
  simpa using h

end DocToMd
